import Mathlib

/-!
Shallow embedding of the sound-synthesis module of the Music-Instrument
repository (`src/project/utils/sound.py`), together with proofs checking the
natural-language specification's claims against it.

Modelling conventions:
- Python floats are idealized as real numbers; `math.sin`, `math.cos` and
  `math.log` become `Real.sin`, `Real.cos`, `Real.log`.
- Python `int(x)` (truncation toward zero) is `pyInt`.
- Python exceptions are modelled with `Except PyErr`; `max()` on an empty
  sequence raises `ValueError`, float division by zero raises
  `ZeroDivisionError`, `int.to_bytes` out of range raises `OverflowError`,
  list-plus-non-list raises `TypeError`, and writing past the end of a
  `bytearray` raises `IndexError`.
- The note table holds exact decimal rationals, cast to the reals at use sites.
-/

namespace MusicSound

/-- Python exception classes that the embedded code can raise. -/
inductive PyErr where
  | valueError
  | zeroDivisionError
  | overflowError
  | typeError
  | indexError
deriving DecidableEq, Repr

deriving instance DecidableEq for Except

/-- Python `int(x)`: truncation toward zero. -/
noncomputable def pyInt (x : ℝ) : ℤ := if 0 ≤ x then ⌊x⌋ else ⌈x⌉

/-- Python `max(...)` over a list of floats: `ValueError` on an empty sequence,
otherwise a left fold of the binary maximum over the elements. -/
noncomputable def pyMax : List ℝ → Except PyErr ℝ
  | [] => .error .valueError
  | x :: xs => .ok (xs.foldl max x)

/-- The `NOTE` dictionary of `sound.py` (lines 158-312), in source order:
note-name strings mapped to frequencies in Hz. -/
def NOTE : List (String × ℚ) := [
  ("C0", 16.35),
  ("D0", 18.35),
  ("E0", 20.60),
  ("F0", 21.83),
  ("G0", 24.50),
  ("A0", 27.50),
  ("B0", 30.87),
  ("C1", 32.70),
  ("D1", 36.71),
  ("E1", 41.20),
  ("F1", 43.65),
  ("G1", 49.00),
  ("A1", 55.00),
  ("B1", 61.74),
  ("C2", 65.41),
  ("D2", 73.42),
  ("E2", 82.41),
  ("F2", 87.31),
  ("G2", 98.00),
  ("A2", 110.00),
  ("B2", 123.47),
  ("C3", 130.81),
  ("D3", 146.83),
  ("E3", 164.81),
  ("F3", 174.61),
  ("G3", 196.00),
  ("A3", 220.00),
  ("B3", 246.94),
  ("C4", 261.63),
  ("D4", 293.66),
  ("E4", 329.63),
  ("F4", 349.23),
  ("G4", 392.00),
  ("A4", 440.00),
  ("B4", 493.88),
  ("C5", 523.25),
  ("D5", 587.33),
  ("E5", 659.25),
  ("F5", 698.46),
  ("G5", 783.99),
  ("A5", 880.00),
  ("B5", 987.77),
  ("C6", 1046.50),
  ("D6", 1174.66),
  ("E6", 1318.51),
  ("F6", 1396.91),
  ("G6", 1567.98),
  ("A6", 1760.00),
  ("B6", 1975.53),
  ("C7", 2093.00),
  ("D7", 2349.32),
  ("E7", 2637.02),
  ("F7", 2793.83),
  ("G7", 3135.96),
  ("A7", 3520.00),
  ("B7", 3951.07),
  ("C8", 4186.01),
  ("D8", 4698.63),
  ("E8", 5274.04),
  ("F8", 5587.65),
  ("G8", 6271.93),
  ("A8", 7040.00),
  ("B8", 7902.13),
  ("C#0", 17.32),
  ("Db0", 17.32),
  ("D#0", 19.45),
  ("Eb0", 19.45),
  ("F#0", 23.12),
  ("Gb0", 23.12),
  ("G#0", 25.96),
  ("Ab0", 25.96),
  ("A#0", 29.14),
  ("Bb0", 29.14),
  ("C#1", 34.65),
  ("Db1", 34.65),
  ("D#1", 38.89),
  ("Eb1", 38.89),
  ("F#1", 46.25),
  ("Gb1", 46.25),
  ("G#1", 51.91),
  ("Ab1", 51.91),
  ("A#1", 58.27),
  ("Bb1", 58.27),
  ("C#2", 69.30),
  ("Db2", 69.30),
  ("D#2", 77.78),
  ("Eb2", 77.78),
  ("F#2", 92.50),
  ("Gb2", 92.50),
  ("G#2", 103.83),
  ("Ab2", 103.83),
  ("A#2", 116.54),
  ("Bb2", 116.54),
  ("C#3", 138.59),
  ("Db3", 138.59),
  ("D#3", 155.56),
  ("Eb3", 155.56),
  ("F#3", 185.00),
  ("Gb3", 185.00),
  ("G#3", 207.65),
  ("Ab3", 207.65),
  ("A#3", 233.08),
  ("Bb3", 233.08),
  ("C#4", 277.18),
  ("Db4", 277.18),
  ("D#4", 311.13),
  ("Eb4", 311.13),
  ("F#4", 369.99),
  ("Gb4", 369.99),
  ("G#4", 415.30),
  ("Ab4", 415.30),
  ("A#4", 466.16),
  ("Bb4", 466.16),
  ("C#5", 554.37),
  ("Db5", 554.37),
  ("D#5", 622.25),
  ("Eb5", 622.25),
  ("F#5", 739.99),
  ("Gb5", 739.99),
  ("G#5", 830.61),
  ("Ab5", 830.61),
  ("A#5", 932.33),
  ("Bb5", 932.33),
  ("C#6", 1108.73),
  ("Db6", 1108.73),
  ("D#6", 1244.51),
  ("Eb6", 1244.51),
  ("F#6", 1479.98),
  ("Gb6", 1479.98),
  ("G#6", 1661.22),
  ("Ab6", 1661.22),
  ("A#6", 1864.66),
  ("Bb6", 1864.66),
  ("C#7", 2217.46),
  ("Db7", 2217.46),
  ("D#7", 2489.02),
  ("Eb7", 2489.02),
  ("F#7", 2959.96),
  ("Gb7", 2959.96),
  ("G#7", 3322.44),
  ("Ab7", 3322.44),
  ("A#7", 3729.31),
  ("Bb7", 3729.31),
  ("C#8", 4434.92),
  ("Db8", 4434.92),
  ("D#8", 4978.03),
  ("Eb8", 4978.03),
  ("F#8", 5919.91),
  ("Gb8", 5919.91),
  ("G#8", 6644.88),
  ("Ab8", 6644.88),
  ("A#8", 7458.62),
  ("Bb8", 7458.62)]

/-- Dictionary lookup `NOTE[name]` / `name in NOTE` (first matching key). -/
def noteLookup (s : String) : Option ℚ := NOTE.lookup s

/-- `BASE_SOUND` (line 23): plain sine wave sampled at the given time points. -/
noncomputable def BASE_SOUND (x : List ℝ) (freq : ℝ) : List ℝ :=
  x.map (fun i => Real.sin (2 * Real.pi * freq * i))

/-- The inner `instrument` function produced by `freq_modulator` (lines 34-47)
for a numeric strength `k`: phase modulation of a carrier cosine, normalized by
the maximum absolute value of the result.  (The `k : str` dispatch branch is
never exercised by the module, which always passes a numeric strength.)
Division by a zero maximum would raise `ZeroDivisionError`. -/
noncomputable def fmRes (mo k : ℝ) (x : List ℝ) (freq : ℝ) : List ℝ :=
  let carrier := x.map (fun i => 2 * Real.pi * i * mo)
  let modulator := x.map (fun i => k * Real.sin (2 * Real.pi * i * freq))
  (carrier.zip modulator).map (fun p => Real.cos (p.1 + p.2))

noncomputable def freq_modulator (mo k : ℝ) (x : List ℝ) (freq : ℝ) :
    Except PyErr (List ℝ) :=
  match pyMax ((fmRes mo k x freq).map abs) with
  | .error e => .error e
  | .ok maximum =>
    if maximum = 0 then .error .zeroDivisionError
    else .ok ((fmRes mo k x freq).map (fun r => r / maximum))

/-- The run-time type of the `instrument` argument at the module's call sites:
`None`, a note-name string, or a number.  (A caller could also pass a raw
function; no caller in the repository does.) -/
inductive InstrArg where
  | noneA
  | strA (s : String)
  | numA (x : ℝ)

/-- The instrument-dispatch prelude of `gen_custom_freq` (lines 57-66):
a known note name or a number selects `freq_modulator`; `None` or an unknown
note name selects `BASE_SOUND`. -/
noncomputable def resolveInstrument (instrument : InstrArg) (strength : ℝ) :
    List ℝ → ℝ → Except PyErr (List ℝ) :=
  match instrument with
  | .noneA => fun t f => .ok (BASE_SOUND t f)
  | .strA s =>
    match noteLookup s with
    | some v => freq_modulator (v : ℝ) strength
    | none => fun t f => .ok (BASE_SOUND t f)
  | .numA x => freq_modulator |x| strength

/-- The sample time points `t = [i / fs for i in range(0, int(seconds * fs))]`
(lines 68-69). -/
noncomputable def tList (seconds fs : ℝ) : List ℝ :=
  List.map (fun (i : ℕ) => (i : ℝ) / fs) (List.range (pyInt (seconds * fs)).toNat)

/-- The fade constant `k = (1 / 3) * (1 / math.log(2))` (line 77). -/
noncomputable def fadeK : ℝ := (1 / 3) * (1 / Real.log 2)

/-- One iteration of the fade loop (lines 78-81): compute
`x = log(i / cutoff * 7 + 1) * k` and write it at positions `n - i - 1` and
then `i`. -/
noncomputable def fadeStep (cutoff : ℤ) (nn : ℕ) (dyn : List ℝ) (i : ℕ) :
    List ℝ :=
  let x := Real.log ((i : ℝ) / (cutoff : ℝ) * 7 + 1) * fadeK
  (dyn.set (nn - i - 1) x).set i x

/-- The `dynamics` envelope list (lines 75-81): all ones, then the fade loop
`for i in range(cutoff)` with `cutoff = min(len(audio), int(fs * cutoff_factor))`. -/
noncomputable def dynList (audioLen : ℕ) (n : ℤ) (fs cutoff_factor : ℝ) :
    List ℝ :=
  let cutoff : ℤ := min (audioLen : ℤ) (pyInt (fs * cutoff_factor))
  (List.range cutoff.toNat).foldl (fadeStep cutoff n.toNat)
    (List.replicate n.toNat (1 : ℝ))

/-- The scaled, truncated, peak-divided sample list
`[int(i * vol_factor * (2**15 - 1)) / maximum for i in note]` (line 74). -/
noncomputable def normAudio (note : List ℝ) (vol maximum : ℝ) : List ℝ :=
  note.map (fun i => ((pyInt (i * vol * (2 ^ 15 - 1)) : ℤ) : ℝ) / maximum)

/-- The per-sample quantized values `int(a * d)` for
`a, d in zip(audio, dynamics)` (line 82). -/
noncomputable def audioInts (audio dyn : List ℝ) : List ℤ :=
  (audio.zip dyn).map (fun p => pyInt (p.1 * p.2))

/-- Python `v.to_bytes(2, "little", signed=True)`: two little-endian
two's-complement bytes, `OverflowError` outside the signed 16-bit range. -/
def to_bytes2le (v : ℤ) : Except PyErr (List ℤ) :=
  if v < -(2 ^ 15) ∨ 2 ^ 15 ≤ v then .error .overflowError
  else .ok [(v.emod 65536).emod 256, (v.emod 65536).ediv 256]

/-- The byte-string assembly `b''.join([int(a * d).to_bytes(...) ...])`
(line 82), raising at the first out-of-range value. -/
def encodeAll : List ℤ → Except PyErr (List ℤ)
  | [] => .ok []
  | v :: vs =>
    match to_bytes2le v with
    | .error e => .error e
    | .ok b =>
      match encodeAll vs with
      | .error e => .error e
      | .ok rest => .ok (b ++ rest)

/-- `gen_custom_freq` (lines 50-83).  Python defaults: `frequency=440`,
`seconds=1`, `vol_factor=0.2`, `fs=8000`, `instrument=None`,
`instrument_strength=1.0`, `cutoff_factor=0.01`.  The `lru_cache` decorator
does not affect the value computed. -/
noncomputable def gen_custom_freq (frequency seconds vol_factor fs : ℝ)
    (instrument : InstrArg) (instrument_strength cutoff_factor : ℝ) :
    Except PyErr (List ℤ) :=
  let n := pyInt (seconds * fs)
  let t := tList seconds fs
  match resolveInstrument instrument instrument_strength t frequency with
  | .error e => .error e
  | .ok note =>
    match pyMax (note.map abs) with
    | .error e => .error e
    | .ok maximum =>
      if maximum = 0 then .error .zeroDivisionError
      else
        let audio := normAudio note vol_factor maximum
        encodeAll (audioInts audio (dynList audio.length n fs cutoff_factor))

/-- The platform audio backend (`simpleaudio`), abstracted: `play_buffer`
hands out fresh handle ids; `live` says which handles are still playing.
Natural completion is modelled by the environment turning `live` off. -/
structure Backend where
  nextId : ℕ
  live : ℕ → Bool

/-- `sa.play_buffer(...)`: allocate a fresh, initially live handle. -/
def Backend.playBuffer (be : Backend) : ℕ × Backend :=
  (be.nextId,
   { nextId := be.nextId + 1,
     live := fun x => if x = be.nextId then true else be.live x })

/-- A backend handle's `stop()`. -/
def Backend.stopHandle (be : Backend) (h : ℕ) : Backend :=
  { be with live := fun x => if x = h then false else be.live x }

/-- Environment step: a submitted buffer finishes playing on its own. -/
def completeH (h : ℕ) (be : Backend) : Backend := be.stopHandle h

/-- The mutable state of a `Sound` object (lines 321-434).  `instrument` is
`None` or a number after `set_instrument`; `audio` is the byte buffer;
`player` is the current playback handle, if any.  `owned` is a ghost history
(not in the source) of every handle id `play()` ever received from the
backend, used only to state the single-live-handle invariant. -/
structure SoundState where
  pitch : ℝ
  instrument : Option ℝ
  vol_factor : ℝ
  instrument_strength : ℝ
  cutoff_factor : ℝ
  seconds : ℝ
  fs : ℝ
  size : ℤ
  audio : List ℤ
  player : Option ℕ
  owned : List ℕ

/-- The run-time type of the `pitch` argument at the module's call sites:
a note-name string or a number.  (The dynamic fallthrough branch that would
store a non-numeric value is outside the modelled value domain; no caller in
the repository exercises it.) -/
inductive PitchArg where
  | strA (s : String)
  | numA (x : ℝ)

/-- `Sound.set_pitch` (lines 346-353): a known note name resolves through
`NOTE`; an unknown note name falls through, leaving the field unchanged;
a number is stored as its absolute value. -/
def Sound.set_pitch (st : SoundState) (pitch : PitchArg) : SoundState :=
  match pitch with
  | .strA s =>
    match noteLookup s with
    | some v => { st with pitch := (v : ℝ) }
    | none => st
  | .numA x => { st with pitch := |x| }

/-- `Sound.set_instrument` (lines 355-362): `None` clears the field; a known
note name resolves through `NOTE`; an unknown note name falls through,
leaving the field unchanged; a number is stored as its absolute value. -/
def Sound.set_instrument (st : SoundState) (instrument : InstrArg) : SoundState :=
  match instrument with
  | .noneA => { st with instrument := none }
  | .strA s =>
    match noteLookup s with
    | some v => { st with instrument := some (v : ℝ) }
    | none => st
  | .numA x => { st with instrument := some |x| }

/-- `Sound.set_instrument_strength` (lines 364-365). -/
def Sound.set_instrument_strength (st : SoundState) (strength : ℝ) : SoundState :=
  { st with instrument_strength := strength }

/-- `Sound.set_volume` (lines 367-368). -/
def Sound.set_volume (st : SoundState) (vol : ℝ) : SoundState :=
  { st with vol_factor := vol }

/-- `Sound.set_cutoff_factor` (lines 370-371). -/
def Sound.set_cutoff_factor (st : SoundState) (factor : ℝ) : SoundState :=
  { st with cutoff_factor := factor }

/-- `Sound.is_playing` (lines 408-411). -/
def Sound.is_playing (st : SoundState) (be : Backend) : Bool :=
  match st.player with
  | some h => be.live h
  | none => false

/-- `Sound.stop` (lines 403-406). -/
def Sound.stop (st : SoundState) (be : Backend) : SoundState × Backend :=
  match st.player with
  | some h => ({ st with player := none }, be.stopHandle h)
  | none => (st, be)

/-- `Sound.play` (lines 398-401): stop first if currently playing, then
submit the buffer and hold the returned handle. -/
def Sound.play (st : SoundState) (be : Backend) : SoundState × Backend :=
  let p := if Sound.is_playing st be then Sound.stop st be else (st, be)
  let r := p.2.playBuffer
  ({ p.1 with player := some r.1, owned := r.1 :: p.1.owned }, r.2)

/-- The `instrument` field as it is handed back to `gen_custom_freq` by
`update_audio` (lines 386-393): `None` or a number. -/
def ofInstrField : Option ℝ → InstrArg
  | none => .noneA
  | some x => .numA x

/-- Writing `new` into the front of the fixed-size buffer `buf`
(`for i, a in enumerate(new_audio): self.audio[i] = a`, lines 394-395):
`IndexError` if `new` is longer than `buf`. -/
def writeInto (buf new : List ℤ) : Except PyErr (List ℤ) :=
  if new.length ≤ buf.length then .ok (new ++ buf.drop new.length)
  else .error .indexError

/-- `Sound.change_duration` (lines 373-384) followed by its `update_audio`
call (lines 386-396): stop if playing, clear the handle, recompute `size`,
allocate the buffer (`bytearray` of a negative size raises `ValueError`),
update `seconds` and `fs`, and regenerate the audio.  Note that
`update_audio` does not pass `self.cutoff_factor`, so the regeneration uses
the default `cutoff_factor=0.01`. -/
noncomputable def Sound.change_duration_core (st1 : SoundState) (seconds : ℝ)
    (fsArg : Option ℝ) (be1 : Backend) : Except PyErr (SoundState × Backend) :=
  let fs := fsArg.getD st1.fs
  let size := pyInt (seconds * fs)
  if size * 2 < 0 then .error .valueError
  else
    match gen_custom_freq st1.pitch seconds st1.vol_factor fs
        (ofInstrField st1.instrument) st1.instrument_strength (1 / 100) with
    | .error e => .error e
    | .ok newAudio =>
      match writeInto (List.replicate (size * 2).toNat 0) newAudio with
      | .error e => .error e
      | .ok written =>
        .ok ({ st1 with size := size, audio := written,
                        seconds := seconds, fs := fs }, be1)

/-- The body of `Sound.change_duration`: first the stop-and-clear prefix
(lines 374-376), then the recomputation above. -/
noncomputable def Sound.change_duration (st : SoundState) (seconds : ℝ)
    (fsArg : Option ℝ) (be : Backend) : Except PyErr (SoundState × Backend) :=
  let p := if Sound.is_playing st be then Sound.stop st be else (st, be)
  Sound.change_duration_core { p.1 with player := none } seconds fsArg p.2

/-- The mutable state of a `SoundSeq` object (lines 454-530), with the same
ghost `owned` history as `SoundState`. -/
structure SoundSeqState where
  sounds : List SoundState
  fs : ℝ
  size : ℤ
  seconds : ℝ
  audio : List ℤ
  player : Option ℕ
  owned : List ℕ

/-- The run-time type of the right operand of `+` on `Sound`/`SoundSeq`. -/
inductive AddOperand where
  | sound (s : SoundState)
  | seq (q : SoundSeqState)

/-- The recomputation core of `SoundSeq.change_duration` (lines 477-487) and
its `update_audio` (lines 489-493): sum member durations and sizes, allocate
the concatenated buffer, and copy every member's bytes into it.  (The
`isinstance` filters are vacuous here: the model's member list only holds
sounds.) -/
noncomputable def SoundSeq.rebuild (q : SoundSeqState) :
    Except PyErr SoundSeqState :=
  let seconds := (q.sounds.map (fun s => s.seconds)).sum
  let size := (q.sounds.map (fun s => s.size)).sum
  if size * 2 < 0 then .error .valueError
  else
    match writeInto (List.replicate (size * 2).toNat 0)
        ((q.sounds.map (fun s => s.audio)).flatten) with
    | .error e => .error e
    | .ok written =>
      .ok { q with audio := written, size := size, seconds := seconds }

/-- `SoundSeq.is_playing` (lines 505-508). -/
def SoundSeq.is_playing (q : SoundSeqState) (be : Backend) : Bool :=
  match q.player with
  | some h => be.live h
  | none => false

/-- `SoundSeq.stop` (lines 500-503). -/
def SoundSeq.stop (q : SoundSeqState) (be : Backend) : SoundSeqState × Backend :=
  match q.player with
  | some h => ({ q with player := none }, be.stopHandle h)
  | none => (q, be)

/-- `SoundSeq.play` (lines 495-498). -/
def SoundSeq.play (q : SoundSeqState) (be : Backend) : SoundSeqState × Backend :=
  let p := if SoundSeq.is_playing q be then SoundSeq.stop q be else (q, be)
  let r := p.2.playBuffer
  ({ p.1 with player := some r.1, owned := r.1 :: p.1.owned }, r.2)

/-- `SoundSeq.change_duration` (lines 474-487): stop if playing, then
rebuild.  Unlike `Sound.change_duration` it does not clear `self.player`
outside of `stop()`. -/
noncomputable def SoundSeq.change_duration (q : SoundSeqState) (be : Backend) :
    Except PyErr (SoundSeqState × Backend) :=
  let p := if SoundSeq.is_playing q be then SoundSeq.stop q be else (q, be)
  match SoundSeq.rebuild p.1 with
  | .error e => .error e
  | .ok q' => .ok (q', p.2)

/-- `SoundSeq.__init__` (lines 455-467) on a list of sounds: a fresh object
has no player (`getattr(self, 'player', None)` is `None`), so the
`change_duration` call reduces to the rebuild. -/
noncomputable def SoundSeq.init (sounds : List SoundState) (fs : ℝ) :
    Except PyErr SoundSeqState :=
  SoundSeq.rebuild
    { sounds := sounds, fs := fs, size := 0, seconds := 0, audio := [],
      player := none, owned := [] }

/-- `SoundSeq.append` (lines 469-472): a matching sample rate appends and
rebuilds; anything else falls through silently, and no exception is raised. -/
noncomputable def SoundSeq.append (q : SoundSeqState) (other : SoundState)
    (be : Backend) : Except PyErr (SoundSeqState × Backend) :=
  if other.fs = q.fs then
    SoundSeq.change_duration { q with sounds := q.sounds ++ [other] } be
  else .ok (q, be)

/-- `Sound.__add__` (lines 421-426): builds a fresh `SoundSeq` (with the
constructor's default `fs=8000`). -/
noncomputable def Sound.add (a : SoundState) (o : AddOperand) :
    Except PyErr SoundSeqState :=
  match o with
  | .sound b => SoundSeq.init [a, b] 8000
  | .seq q => SoundSeq.init (a :: q.sounds) 8000

/-- `SoundSeq.__add__` (lines 518-523).  In the `Sound` case the source
evaluates `self.sounds + other`, concatenating a Python list with a `Sound`,
which raises `TypeError` before any sequence is built. -/
noncomputable def SoundSeq.add (q : SoundSeqState) (o : AddOperand) :
    Except PyErr SoundSeqState :=
  match o with
  | .sound _ => .error .typeError
  | .seq r => SoundSeq.init (q.sounds ++ r.sounds) 8000

/-- Backend sanity: handles at or above the allocation cursor are not live. -/
def BackendWF (be : Backend) : Prop :=
  ∀ h, be.nextId ≤ h → be.live h = false

/-- The single-live-handle invariant for a `Sound`: the backend is sane,
every handle the object ever owned is below the cursor, every owned handle
that is still live is the current one, and the current handle is below the
cursor. -/
def SoundInv (st : SoundState) (be : Backend) : Prop :=
  BackendWF be ∧ (∀ h ∈ st.owned, h < be.nextId) ∧
  (∀ h ∈ st.owned, be.live h = true → st.player = some h) ∧
  (∀ h, st.player = some h → h < be.nextId)

/-- The single-live-handle invariant for a `SoundSeq`. -/
def SoundSeqInv (q : SoundSeqState) (be : Backend) : Prop :=
  BackendWF be ∧ (∀ h ∈ q.owned, h < be.nextId) ∧
  (∀ h ∈ q.owned, be.live h = true → q.player = some h) ∧
  (∀ h, q.player = some h → h < be.nextId)

/-- The specified output-sample formula, written from the spec's words
(section 4.3): `round(normalizedSample[i] * volume * envelope[i] * 32767)`,
clamped to the signed 16-bit range.  This is the spec side of claim C6, to be
compared with the code's quantization. -/
noncomputable def specEmittedSample (normSample vol env : ℝ) : ℤ :=
  max (-(2 ^ 15)) (min (2 ^ 15 - 1) (round (normSample * vol * env * (2 ^ 15 - 1))))

/-! Basic lemmas about the Python primitives. -/

theorem pyInt_intCast (z : ℤ) : pyInt (z : ℝ) = z := by
  unfold pyInt
  split <;> simp

theorem pyInt_zero : pyInt 0 = 0 := by
  have h := pyInt_intCast 0
  simpa using h

theorem pyInt_cast_abs_le (x : ℝ) : |((pyInt x : ℤ) : ℝ)| ≤ |x| := by
  unfold pyInt
  by_cases h : 0 ≤ x
  · rw [if_pos h]
    have h1 : (0 : ℝ) ≤ (⌊x⌋ : ℝ) := by
      exact_mod_cast Int.le_floor.mpr (by exact_mod_cast h)
    rw [abs_of_nonneg h1, abs_of_nonneg h]
    exact Int.floor_le x
  · rw [if_neg h]
    push_neg at h
    have h1 : ((⌈x⌉ : ℤ) : ℝ) ≤ 0 := by
      exact_mod_cast Int.ceil_le.mpr (by exact_mod_cast h.le)
    rw [abs_of_nonpos h1, abs_of_nonpos h.le]
    exact neg_le_neg (Int.le_ceil x)

theorem le_foldl_max (xs : List ℝ) (x : ℝ) :
    x ≤ xs.foldl max x ∧ ∀ y ∈ xs, y ≤ xs.foldl max x := by
  induction xs generalizing x with
  | nil => exact ⟨le_refl x, by simp⟩
  | cons a as ih =>
    have h1 : x ≤ max x a := le_max_left x a
    have h2 : a ≤ max x a := le_max_right x a
    refine ⟨h1.trans (ih (max x a)).1, ?_⟩
    intro y hy
    rcases List.mem_cons.mp hy with h | h
    · rw [h]
      exact h2.trans (ih (max x a)).1
    · exact (ih (max x a)).2 y h

theorem pyMax_ok_le {l : List ℝ} {m : ℝ} (h : pyMax l = .ok m) :
    ∀ y ∈ l, y ≤ m := by
  match l with
  | [] => simp [pyMax] at h
  | x :: xs =>
    simp only [pyMax, Except.ok.injEq] at h
    subst h
    intro y hy
    rcases List.mem_cons.mp hy with h | h
    · subst h
      exact (le_foldl_max xs y).1
    · exact (le_foldl_max xs x).2 y h

theorem pyMax_ne_nil {l : List ℝ} {m : ℝ} (h : pyMax l = .ok m) : l ≠ [] := by
  intro hnil
  subst hnil
  simp [pyMax] at h

theorem tList_length (seconds fs : ℝ) :
    (tList seconds fs).length = (pyInt (seconds * fs)).toNat := by
  unfold tList
  rw [List.length_map, List.length_range]

theorem normAudio_length (note : List ℝ) (vol maximum : ℝ) :
    (normAudio note vol maximum).length = note.length := by
  simp [normAudio]

theorem audioInts_length (audio dyn : List ℝ) :
    (audioInts audio dyn).length = min audio.length dyn.length := by
  simp [audioInts]

theorem fadeStep_length (cutoff : ℤ) (nn : ℕ) (dyn : List ℝ) (i : ℕ) :
    (fadeStep cutoff nn dyn i).length = dyn.length := by
  simp [fadeStep]

theorem foldl_fadeStep_length (cutoff : ℤ) (nn : ℕ) (idxs : List ℕ) :
    ∀ acc : List ℝ, (idxs.foldl (fadeStep cutoff nn) acc).length = acc.length := by
  induction idxs with
  | nil => intro acc; rfl
  | cons i is ih =>
    intro acc
    rw [List.foldl_cons, ih, fadeStep_length]

theorem dynList_length (audioLen : ℕ) (n : ℤ) (fs c : ℝ) :
    (dynList audioLen n fs c).length = n.toNat := by
  unfold dynList
  rw [foldl_fadeStep_length]
  simp

theorem fmRes_length (mo k : ℝ) (x : List ℝ) (f : ℝ) :
    (fmRes mo k x f).length = x.length := by
  simp [fmRes]

theorem freq_modulator_length {mo k : ℝ} {x : List ℝ} {f : ℝ} {note : List ℝ}
    (h : freq_modulator mo k x f = .ok note) : note.length = x.length := by
  unfold freq_modulator at h
  cases hm : pyMax ((fmRes mo k x f).map abs) with
  | error e => rw [hm] at h; exact absurd h (by simp)
  | ok maximum =>
    rw [hm] at h
    by_cases h0 : maximum = 0
    · simp [h0] at h
    · simp only [h0, if_false, if_neg h0, Except.ok.injEq] at h
      subst h
      rw [List.length_map, fmRes_length]

theorem resolveInstrument_length {a : InstrArg} {k : ℝ} {t : List ℝ} {f : ℝ}
    {note : List ℝ} (h : resolveInstrument a k t f = .ok note) :
    note.length = t.length := by
  cases a with
  | noneA =>
    simp only [resolveInstrument, Except.ok.injEq] at h
    subst h
    simp [BASE_SOUND]
  | strA s =>
    simp only [resolveInstrument] at h
    cases hl : noteLookup s with
    | some v => rw [hl] at h; exact freq_modulator_length h
    | none =>
      rw [hl] at h
      simp only [Except.ok.injEq] at h
      subst h
      simp [BASE_SOUND]
  | numA x =>
    simp only [resolveInstrument] at h
    exact freq_modulator_length h

theorem to_bytes2le_ok_length {v : ℤ} {b : List ℤ} (h : to_bytes2le v = .ok b) :
    b.length = 2 := by
  unfold to_bytes2le at h
  split at h
  · exact absurd h (by simp)
  · simp only [Except.ok.injEq] at h
    subst h
    simp

theorem encodeAll_ok_length {l : List ℤ} {bs : List ℤ}
    (h : encodeAll l = .ok bs) : bs.length = 2 * l.length := by
  induction l generalizing bs with
  | nil =>
    simp only [encodeAll, Except.ok.injEq] at h
    subst h
    simp
  | cons v vs ih =>
    simp only [encodeAll] at h
    cases hb : to_bytes2le v with
    | error e => rw [hb] at h; exact absurd h (by simp)
    | ok b =>
      rw [hb] at h
      cases hr : encodeAll vs with
      | error e => rw [hr] at h; exact absurd h (by simp)
      | ok rest =>
        rw [hr] at h
        simp only [Except.ok.injEq] at h
        subst h
        simp [to_bytes2le_ok_length hb, ih hr, List.length_append,
          Nat.mul_add]
        ring

theorem encodeAll_ok_of_range {l : List ℤ}
    (h : ∀ v ∈ l, -(2 ^ 15) ≤ v ∧ v < 2 ^ 15) :
    encodeAll l =
      .ok ((l.map
        (fun v => [(v.emod 65536).emod 256, (v.emod 65536).ediv 256])).flatten) := by
  induction l with
  | nil => simp [encodeAll]
  | cons v vs ih =>
    have hv := h v (List.mem_cons_self v vs)
    have hcond : ¬(v < -(2 ^ 15) ∨ 2 ^ 15 ≤ v) := by
      push_neg
      exact ⟨hv.1, hv.2⟩
    simp only [encodeAll, to_bytes2le, if_neg hcond]
    rw [ih (fun w hw => h w (List.mem_cons_of_mem v hw))]
    simp

/-! Unfolding lemmas for `gen_custom_freq`, one per control path. -/

theorem gen_err_resolve {f s v fs : ℝ} {a : InstrArg} {k c : ℝ} {e : PyErr}
    (hnote : resolveInstrument a k (tList s fs) f = .error e) :
    gen_custom_freq f s v fs a k c = .error e := by
  simp [gen_custom_freq, hnote]

theorem gen_err_max {f s v fs : ℝ} {a : InstrArg} {k c : ℝ} {note : List ℝ}
    {e : PyErr}
    (hnote : resolveInstrument a k (tList s fs) f = .ok note)
    (hm : pyMax (note.map abs) = .error e) :
    gen_custom_freq f s v fs a k c = .error e := by
  simp [gen_custom_freq, hnote, hm]

theorem gen_err_zero {f s v fs : ℝ} {a : InstrArg} {k c : ℝ} {note : List ℝ}
    (hnote : resolveInstrument a k (tList s fs) f = .ok note)
    (hm : pyMax (note.map abs) = .ok 0) :
    gen_custom_freq f s v fs a k c = .error .zeroDivisionError := by
  simp [gen_custom_freq, hnote, hm]

theorem gen_eq_encode {f s v fs : ℝ} {a : InstrArg} {k c : ℝ} {note : List ℝ}
    {m : ℝ}
    (hnote : resolveInstrument a k (tList s fs) f = .ok note)
    (hm : pyMax (note.map abs) = .ok m) (h0 : m ≠ 0) :
    gen_custom_freq f s v fs a k c =
      encodeAll (audioInts (normAudio note v m)
        (dynList (normAudio note v m).length (pyInt (s * fs)) fs c)) := by
  simp only [gen_custom_freq, hnote, hm]
  rw [if_neg h0]

theorem gen_ok_length {f s v fs : ℝ} {a : InstrArg} {k c : ℝ} {bs : List ℤ}
    (h : gen_custom_freq f s v fs a k c = .ok bs) :
    bs.length = 2 * (pyInt (s * fs)).toNat := by
  cases hnote : resolveInstrument a k (tList s fs) f with
  | error e => rw [gen_err_resolve hnote] at h; exact absurd h (by simp)
  | ok note =>
    cases hm : pyMax (note.map abs) with
    | error e => rw [gen_err_max hnote hm] at h; exact absurd h (by simp)
    | ok m =>
      by_cases h0 : m = 0
      · rw [h0] at hm
        rw [gen_err_zero hnote hm] at h
        exact absurd h (by simp)
      · rw [gen_eq_encode hnote hm h0] at h
        rw [encodeAll_ok_length h, audioInts_length, normAudio_length,
          dynList_length, resolveInstrument_length hnote, tList_length,
          Nat.min_self]

/-! Bounds on the fade envelope and the quantized samples. -/

theorem fadeX_bounds (cutoff : ℤ) (i : ℕ) (hi : (i : ℤ) < cutoff) :
    0 ≤ Real.log ((i : ℝ) / (cutoff : ℝ) * 7 + 1) * fadeK ∧
      Real.log ((i : ℝ) / (cutoff : ℝ) * 7 + 1) * fadeK ≤ 1 := by
  have hc : (0 : ℝ) < (cutoff : ℝ) := by
    have : (0 : ℤ) < cutoff := lt_of_le_of_lt (by positivity) hi
    exact_mod_cast this
  have hfrac0 : 0 ≤ (i : ℝ) / (cutoff : ℝ) := by positivity
  have hfrac1 : (i : ℝ) / (cutoff : ℝ) < 1 := by
    rw [div_lt_one hc]
    exact_mod_cast hi
  have harg1 : (1 : ℝ) ≤ (i : ℝ) / (cutoff : ℝ) * 7 + 1 := by nlinarith
  have harg8 : (i : ℝ) / (cutoff : ℝ) * 7 + 1 < 8 := by nlinarith
  have hlog0 : 0 ≤ Real.log ((i : ℝ) / (cutoff : ℝ) * 7 + 1) :=
    Real.log_nonneg harg1
  have hlog8 : Real.log ((i : ℝ) / (cutoff : ℝ) * 7 + 1) ≤ Real.log 8 :=
    Real.log_le_log (by linarith) harg8.le
  have h8 : Real.log 8 = 3 * Real.log 2 := by
    rw [show (8 : ℝ) = 2 ^ 3 by norm_num, Real.log_pow]
    push_cast
    ring
  have hk0 : 0 < Real.log 2 := Real.log_pos (by norm_num)
  constructor
  · apply mul_nonneg hlog0
    unfold fadeK
    positivity
  · rw [h8] at hlog8
    have hkpos : 0 < fadeK := by unfold fadeK; positivity
    calc Real.log ((i : ℝ) / (cutoff : ℝ) * 7 + 1) * fadeK
        ≤ (3 * Real.log 2) * fadeK :=
          mul_le_mul_of_nonneg_right hlog8 hkpos.le
      _ = 1 := by
          unfold fadeK
          field_simp

theorem dynList_mem_bounds (audioLen : ℕ) (n : ℤ) (fs c : ℝ) :
    ∀ d ∈ dynList audioLen n fs c, 0 ≤ d ∧ d ≤ 1 := by
  unfold dynList
  have key : ∀ (idxs : List ℕ),
      (∀ i ∈ idxs, (i : ℤ) < min (audioLen : ℤ) (pyInt (fs * c))) →
      ∀ (acc : List ℝ), (∀ d ∈ acc, 0 ≤ d ∧ d ≤ 1) →
      ∀ d ∈ idxs.foldl
        (fadeStep (min (audioLen : ℤ) (pyInt (fs * c))) n.toNat) acc,
        0 ≤ d ∧ d ≤ 1 := by
    intro idxs
    induction idxs with
    | nil => intro _ acc hacc d hd; exact hacc d hd
    | cons i is ih =>
      intro hmem acc hacc
      rw [List.foldl_cons]
      apply ih (fun j hj => hmem j (List.mem_cons_of_mem i hj))
      intro d hd
      simp only [fadeStep] at hd
      have hx := fadeX_bounds (min (audioLen : ℤ) (pyInt (fs * c))) i
        (hmem i (List.mem_cons_self i is))
      rcases List.mem_or_eq_of_mem_set hd with hd1 | hd1
      · rcases List.mem_or_eq_of_mem_set hd1 with hd2 | hd2
        · exact hacc d hd2
        · rw [hd2]; exact hx
      · rw [hd1]; exact hx
  apply key
  · intro i hi
    rw [List.mem_range] at hi
    omega
  · intro d hd
    rw [List.mem_replicate] at hd
    rw [hd.2]
    norm_num

theorem pyInt_mul_bound {x m v d : ℝ} (hxm : |x| ≤ m) (hm : 0 < m)
    (hv0 : 0 ≤ v) (hv1 : v ≤ 1) (hd0 : 0 ≤ d) (hd1 : d ≤ 1) :
    -(2 ^ 15) ≤ pyInt (((pyInt (x * v * (2 ^ 15 - 1)) : ℤ) : ℝ) / m * d) ∧
      pyInt (((pyInt (x * v * (2 ^ 15 - 1)) : ℤ) : ℝ) / m * d) < 2 ^ 15 := by
  have hA : |((pyInt (x * v * (2 ^ 15 - 1)) : ℤ) : ℝ)| ≤ m * (v * (2 ^ 15 - 1)) := by
    refine (pyInt_cast_abs_le _).trans ?_
    rw [abs_mul, abs_mul]
    rw [abs_of_nonneg hv0, abs_of_nonneg (by norm_num : (0 : ℝ) ≤ (2 ^ 15 - 1))]
    nlinarith [abs_nonneg x]
  have hz : |((pyInt (x * v * (2 ^ 15 - 1)) : ℤ) : ℝ) / m * d| ≤ 2 ^ 15 - 1 := by
    rw [abs_mul, abs_div, abs_of_nonneg hd0, abs_of_nonneg hm.le]
    have h1 : |((pyInt (x * v * (2 ^ 15 - 1)) : ℤ) : ℝ)| / m ≤ v * (2 ^ 15 - 1) := by
      rw [div_le_iff₀ hm]
      nlinarith
    have h2 : |((pyInt (x * v * (2 ^ 15 - 1)) : ℤ) : ℝ)| / m * d ≤ v * (2 ^ 15 - 1) * d := by
      exact mul_le_mul_of_nonneg_right h1 hd0
    nlinarith [div_nonneg (abs_nonneg ((pyInt (x * v * (2 ^ 15 - 1)) : ℤ) : ℝ)) hm.le]
  have hfin := (pyInt_cast_abs_le (((pyInt (x * v * (2 ^ 15 - 1)) : ℤ) : ℝ) / m * d)).trans hz
  rw [abs_le] at hfin
  constructor
  · have : ((-(2 ^ 15 - 1) : ℝ)) ≤ ((pyInt (((pyInt (x * v * (2 ^ 15 - 1)) : ℤ) : ℝ) / m * d) : ℤ) : ℝ) := by
      linarith [hfin.1]
    have h := (by exact_mod_cast this :
      (-(2 ^ 15 - 1) : ℤ) ≤ pyInt (((pyInt (x * v * (2 ^ 15 - 1)) : ℤ) : ℝ) / m * d))
    omega
  · have : ((pyInt (((pyInt (x * v * (2 ^ 15 - 1)) : ℤ) : ℝ) / m * d) : ℤ) : ℝ) ≤ (2 ^ 15 - 1 : ℝ) := hfin.2
    have h := (by exact_mod_cast this :
      pyInt (((pyInt (x * v * (2 ^ 15 - 1)) : ℤ) : ℝ) / m * d) ≤ (2 ^ 15 - 1 : ℤ))
    omega

theorem audioInts_range_of_vol {note : List ℝ} {vol m : ℝ} {dyn : List ℝ}
    (hmax : ∀ y ∈ note.map abs, y ≤ m) (hmpos : 0 < m)
    (hv0 : 0 ≤ vol) (hv1 : vol ≤ 1) (hdyn : ∀ d ∈ dyn, 0 ≤ d ∧ d ≤ 1) :
    ∀ w ∈ audioInts (normAudio note vol m) dyn,
      -(2 ^ 15) ≤ w ∧ w < 2 ^ 15 := by
  intro w hw
  unfold audioInts at hw
  rcases List.mem_map.mp hw with ⟨p, hp, hpe⟩
  have hmem := List.of_mem_zip hp
  rcases List.mem_map.mp hmem.1 with ⟨x, hx, hxe⟩
  have hxm : |x| ≤ m := hmax |x| (List.mem_map.mpr ⟨x, hx, rfl⟩)
  have hd := hdyn p.2 hmem.2
  rw [← hpe, ← hxe]
  exact pyInt_mul_bound hxm hmpos hv0 hv1 hd.1 hd.2

/-- C9: in any `gen_custom_freq` computation whose volume factor lies in
`[0, 1]` and whose maximum absolute raw sample is positive, every quantized
envelope-scaled sample `int(a * d)` lies in the signed 16-bit range, so the
`to_bytes` encoding step cannot raise `OverflowError` and the whole call
succeeds. -/
theorem C9_no_overflow {f s vol fs : ℝ} {a : InstrArg} {k c : ℝ}
    {note : List ℝ} {m : ℝ}
    (hnote : resolveInstrument a k (tList s fs) f = .ok note)
    (hm : pyMax (note.map abs) = .ok m) (hmpos : 0 < m)
    (hv0 : 0 ≤ vol) (hv1 : vol ≤ 1) :
    (∀ w ∈ audioInts (normAudio note vol m)
        (dynList (normAudio note vol m).length (pyInt (s * fs)) fs c),
      -(2 ^ 15) ≤ w ∧ w < 2 ^ 15) ∧
    ∃ bs, gen_custom_freq f s vol fs a k c = .ok bs := by
  have hrange := audioInts_range_of_vol (pyMax_ok_le hm) hmpos hv0 hv1
    (dynList_mem_bounds (normAudio note vol m).length (pyInt (s * fs)) fs c)
  refine ⟨hrange, ?_⟩
  rw [gen_eq_encode hnote hm (ne_of_gt hmpos)]
  rw [encodeAll_ok_of_range hrange]
  exact ⟨_, rfl⟩

/-! Concrete evaluations of the synthesis pipeline at small inputs
(sample rates 2 and 4, one second), where every sine value is exact. -/

theorem pyInt_eq_int {x : ℝ} {z : ℤ} (h0 : 0 ≤ x) (h1 : (z : ℝ) ≤ x)
    (h2 : x < z + 1) : pyInt x = z := by
  unfold pyInt
  rw [if_pos h0, Int.floor_eq_iff]
  exact ⟨h1, h2⟩

theorem pyInt_eq_int_neg {x : ℝ} {z : ℤ} (h0 : ¬0 ≤ x) (h1 : (z : ℝ) - 1 < x)
    (h2 : x ≤ z) : pyInt x = z := by
  unfold pyInt
  rw [if_neg h0, Int.ceil_eq_iff]
  exact ⟨h1, h2⟩

theorem pyInt_one_mul_four : pyInt ((1 : ℝ) * 4) = 4 :=
  pyInt_eq_int (by norm_num) (by norm_num) (by norm_num)

theorem pyInt_one_mul_two : pyInt ((1 : ℝ) * 2) = 2 :=
  pyInt_eq_int (by norm_num) (by norm_num) (by norm_num)

theorem pyInt_four_hundredth : pyInt ((4 : ℝ) * (1 / 100)) = 0 :=
  pyInt_eq_int (by norm_num) (by norm_num) (by norm_num)

theorem pyInt_fifth_pos : pyInt ((1 : ℝ) * (1 / 5) * (2 ^ 15 - 1)) = 6553 :=
  pyInt_eq_int (by norm_num) (by norm_num) (by norm_num)

theorem pyInt_fifth_neg : pyInt ((-1 : ℝ) * (1 / 5) * (2 ^ 15 - 1)) = -6553 :=
  pyInt_eq_int_neg (by norm_num) (by norm_num) (by norm_num)

theorem pyInt_half_pos : pyInt ((1 : ℝ) * (1 / 2) * (2 ^ 15 - 1)) = 16383 :=
  pyInt_eq_int (by norm_num) (by norm_num) (by norm_num)

theorem pyInt_half_neg : pyInt ((-1 : ℝ) * (1 / 2) * (2 ^ 15 - 1)) = -16383 :=
  pyInt_eq_int_neg (by norm_num) (by norm_num) (by norm_num)

theorem pyInt_zero_arg (v : ℝ) : pyInt ((0 : ℝ) * v * (2 ^ 15 - 1)) = 0 := by
  rw [zero_mul, zero_mul]
  exact pyInt_zero

theorem tList_one_four : tList 1 4 = [0, 1 / 4, 1 / 2, 3 / 4] := by
  unfold tList
  rw [pyInt_one_mul_four, show (4 : ℤ).toNat = 4 from rfl,
    show List.range 4 = [0, 1, 2, 3] from rfl]
  norm_num

theorem tList_one_two : tList 1 2 = [0, 1 / 2] := by
  unfold tList
  rw [pyInt_one_mul_two, show (2 : ℤ).toNat = 2 from rfl,
    show List.range 2 = [0, 1] from rfl]
  norm_num

theorem base_one_four : BASE_SOUND (tList 1 4) 1 = [0, 1, 0, -1] := by
  rw [tList_one_four]
  unfold BASE_SOUND
  simp only [List.map_cons, List.map_nil, List.cons.injEq, and_true]
  refine ⟨?_, ?_, ?_, ?_⟩
  · rw [show 2 * Real.pi * 1 * (0 : ℝ) = 0 by ring, Real.sin_zero]
  · rw [show 2 * Real.pi * 1 * ((1 : ℝ) / 4) = Real.pi / 2 by ring,
      Real.sin_pi_div_two]
  · rw [show 2 * Real.pi * 1 * ((1 : ℝ) / 2) = Real.pi by ring, Real.sin_pi]
  · rw [show 2 * Real.pi * 1 * ((3 : ℝ) / 4) = Real.pi / 2 + Real.pi by ring,
      Real.sin_add_pi, Real.sin_pi_div_two]

theorem base_neg_one_four : BASE_SOUND (tList 1 4) (-1) = [0, -1, 0, 1] := by
  rw [tList_one_four]
  unfold BASE_SOUND
  simp only [List.map_cons, List.map_nil, List.cons.injEq, and_true]
  refine ⟨?_, ?_, ?_, ?_⟩
  · rw [show 2 * Real.pi * (-1) * (0 : ℝ) = 0 by ring, Real.sin_zero]
  · rw [show 2 * Real.pi * (-1) * ((1 : ℝ) / 4) = -(Real.pi / 2) by ring,
      Real.sin_neg, Real.sin_pi_div_two]
  · rw [show 2 * Real.pi * (-1) * ((1 : ℝ) / 2) = -Real.pi by ring,
      Real.sin_neg, Real.sin_pi, neg_zero]
  · rw [show 2 * Real.pi * (-1) * ((3 : ℝ) / 4) = -(Real.pi / 2 + Real.pi) by ring,
      Real.sin_neg, Real.sin_add_pi, Real.sin_pi_div_two, neg_neg]

theorem base_one_two : BASE_SOUND (tList 1 2) 1 = [0, 0] := by
  rw [tList_one_two]
  unfold BASE_SOUND
  simp only [List.map_cons, List.map_nil, List.cons.injEq, and_true]
  constructor
  · rw [show 2 * Real.pi * 1 * (0 : ℝ) = 0 by ring, Real.sin_zero]
  · rw [show 2 * Real.pi * 1 * ((1 : ℝ) / 2) = Real.pi by ring, Real.sin_pi]

theorem pyMax_0101 : pyMax [(0 : ℝ), 1, 0, 1] = .ok 1 := by
  simp only [pyMax, List.foldl]
  norm_num [max_def]

theorem pyMax_00 : pyMax [(0 : ℝ), 0] = .ok 0 := by
  simp only [pyMax, List.foldl]
  norm_num [max_def]

theorem normAudio_fifth :
    normAudio [0, 1, 0, -1] (1 / 5) 1 = [0, 6553, 0, -6553] := by
  unfold normAudio
  simp only [List.map_cons, List.map_nil]
  rw [pyInt_zero_arg, pyInt_fifth_pos, pyInt_fifth_neg]
  norm_num

theorem normAudio_half :
    normAudio [0, 1, 0, -1] (1 / 2) 1 = [0, 16383, 0, -16383] := by
  unfold normAudio
  simp only [List.map_cons, List.map_nil]
  rw [pyInt_zero_arg, pyInt_half_pos, pyInt_half_neg]
  norm_num

theorem normAudio_fifth_neg :
    normAudio [0, -1, 0, 1] (1 / 5) 1 = [0, -6553, 0, 6553] := by
  unfold normAudio
  simp only [List.map_cons, List.map_nil]
  rw [pyInt_zero_arg, pyInt_fifth_pos, pyInt_fifth_neg]
  norm_num

theorem dynList_four_id : dynList 4 4 4 (1 / 100) = [1, 1, 1, 1] := by
  simp only [dynList, pyInt_four_hundredth]
  norm_num [List.replicate]

theorem pyInt_intCast_mul_one (z : ℤ) : pyInt ((z : ℝ) * 1) = z := by
  rw [mul_one, pyInt_intCast]

theorem audioInts_ints (z1 z2 z3 z4 : ℤ) :
    audioInts [(z1 : ℝ), (z2 : ℝ), (z3 : ℝ), (z4 : ℝ)] [1, 1, 1, 1] =
      [z1, z2, z3, z4] := by
  unfold audioInts
  simp only [List.zip_cons_cons, List.zip_nil_right, List.map_cons,
    List.map_nil]
  rw [pyInt_intCast_mul_one, pyInt_intCast_mul_one, pyInt_intCast_mul_one,
    pyInt_intCast_mul_one]

theorem gen_eval_fifth :
    gen_custom_freq 1 1 (1 / 5) 4 .noneA 1 (1 / 100) =
      .ok [0, 0, 153, 25, 0, 0, 103, 230] := by
  have hnote : resolveInstrument .noneA 1 (tList 1 4) 1 = .ok [0, 1, 0, -1] := by
    simp only [resolveInstrument]
    rw [base_one_four]
  have hm : pyMax (List.map abs [(0 : ℝ), 1, 0, -1]) = .ok 1 := by
    rw [show List.map abs [(0 : ℝ), 1, 0, -1] = [0, 1, 0, 1] by norm_num]
    exact pyMax_0101
  rw [gen_eq_encode hnote hm one_ne_zero, normAudio_fifth]
  rw [show ([(0 : ℝ), 6553, 0, -6553].length) = 4 from rfl, pyInt_one_mul_four,
    dynList_four_id]
  rw [show ([(0 : ℝ), 6553, 0, -6553]) =
    [((0 : ℤ) : ℝ), ((6553 : ℤ) : ℝ), ((0 : ℤ) : ℝ), ((-6553 : ℤ) : ℝ)] by norm_num]
  rw [audioInts_ints]
  decide

theorem gen_eval_half :
    gen_custom_freq 1 1 (1 / 2) 4 .noneA 1 (1 / 100) =
      .ok [0, 0, 255, 63, 0, 0, 1, 192] := by
  have hnote : resolveInstrument .noneA 1 (tList 1 4) 1 = .ok [0, 1, 0, -1] := by
    simp only [resolveInstrument]
    rw [base_one_four]
  have hm : pyMax (List.map abs [(0 : ℝ), 1, 0, -1]) = .ok 1 := by
    rw [show List.map abs [(0 : ℝ), 1, 0, -1] = [0, 1, 0, 1] by norm_num]
    exact pyMax_0101
  rw [gen_eq_encode hnote hm one_ne_zero, normAudio_half]
  rw [show ([(0 : ℝ), 16383, 0, -16383].length) = 4 from rfl, pyInt_one_mul_four,
    dynList_four_id]
  rw [show ([(0 : ℝ), 16383, 0, -16383]) =
    [((0 : ℤ) : ℝ), ((16383 : ℤ) : ℝ), ((0 : ℤ) : ℝ), ((-16383 : ℤ) : ℝ)] by norm_num]
  rw [audioInts_ints]
  decide

theorem gen_eval_neg_freq :
    gen_custom_freq (-1) 1 (1 / 5) 4 .noneA 1 (1 / 100) =
      .ok [0, 0, 103, 230, 0, 0, 153, 25] := by
  have hnote : resolveInstrument .noneA 1 (tList 1 4) (-1) = .ok [0, -1, 0, 1] := by
    simp only [resolveInstrument]
    rw [base_neg_one_four]
  have hm : pyMax (List.map abs [(0 : ℝ), -1, 0, 1]) = .ok 1 := by
    rw [show List.map abs [(0 : ℝ), -1, 0, 1] = [0, 1, 0, 1] by norm_num]
    exact pyMax_0101
  rw [gen_eq_encode hnote hm one_ne_zero, normAudio_fifth_neg]
  rw [show ([(0 : ℝ), -6553, 0, 6553].length) = 4 from rfl, pyInt_one_mul_four,
    dynList_four_id]
  rw [show ([(0 : ℝ), -6553, 0, 6553]) =
    [((0 : ℤ) : ℝ), ((-6553 : ℤ) : ℝ), ((0 : ℤ) : ℝ), ((6553 : ℤ) : ℝ)] by norm_num]
  rw [audioInts_ints]
  decide

theorem gen_eval_allzero :
    gen_custom_freq 1 1 (1 / 5) 2 .noneA 1 (1 / 100) =
      .error .zeroDivisionError := by
  have hnote : resolveInstrument .noneA 1 (tList 1 2) 1 = .ok [0, 0] := by
    simp only [resolveInstrument]
    rw [base_one_two]
  have hm : pyMax (List.map abs [(0 : ℝ), 0]) = .ok 0 := by
    rw [show List.map abs [(0 : ℝ), 0] = [0, 0] by norm_num]
    exact pyMax_00
  exact gen_err_zero hnote hm

/-! Degenerate-input lemmas: empty sample lists and all-zero raw samples. -/

theorem freq_modulator_nil (mo k f : ℝ) :
    freq_modulator mo k [] f = .error .valueError := rfl

theorem resolveInstrument_nil (a : InstrArg) (k f : ℝ) :
    resolveInstrument a k [] f = .ok [] ∨
      resolveInstrument a k [] f = .error .valueError := by
  cases a with
  | noneA => exact Or.inl rfl
  | strA s =>
    cases hnl : noteLookup s with
    | some v =>
      refine Or.inr ?_
      simp only [resolveInstrument, hnl]
      exact freq_modulator_nil _ _ _
    | none =>
      refine Or.inl ?_
      simp only [resolveInstrument, hnl]
      rfl
  | numA x =>
    refine Or.inr ?_
    simp only [resolveInstrument]
    exact freq_modulator_nil _ _ _

theorem foldl_max_zeros (xs : List ℝ) (h : ∀ y ∈ xs, y = 0) :
    xs.foldl max (0 : ℝ) = 0 := by
  induction xs with
  | nil => rfl
  | cons y ys ih =>
    rw [List.foldl_cons, h y (List.mem_cons_self y ys), max_self]
    exact ih (fun z hz => h z (List.mem_cons_of_mem y hz))

theorem pyMax_zeros (l : List ℝ) (h : ∀ y ∈ l, y = 0) (hne : l ≠ []) :
    pyMax l = .ok 0 := by
  cases l with
  | nil => exact absurd rfl hne
  | cons x xs =>
    simp only [pyMax, Except.ok.injEq]
    rw [h x (List.mem_cons_self x xs)]
    exact foldl_max_zeros xs (fun z hz => h z (List.mem_cons_of_mem x hz))

theorem BASE_SOUND_zero_freq (x : List ℝ) :
    BASE_SOUND x 0 = x.map (fun _ => 0) := by
  unfold BASE_SOUND
  have hfun : (fun i => Real.sin (2 * Real.pi * 0 * i)) = fun (_ : ℝ) => (0 : ℝ) :=
    funext fun i => by rw [mul_zero, zero_mul, Real.sin_zero]
  rw [hfun]

/-- C1, counterexample: `gen_custom_freq` called with the negative frequency
`-1` (and positive duration `1` and sample rate `4`) does not fail at all —
it returns a PCM byte string — refuting the claim that every call with
`frequencyHz <= 0` fails with an `InvalidParameter` error. -/
theorem C1_counterexample :
    (-1 : ℝ) < 0 ∧
      gen_custom_freq (-1) 1 (1 / 5) 4 .noneA 1 (1 / 100) =
        .ok [0, 0, 103, 230, 0, 0, 153, 25] :=
  ⟨by norm_num, gen_eval_neg_freq⟩

/-- C1 (amended): `gen_custom_freq` has no parameter validation and no
`InvalidParameter` error.  When `int(seconds * fs) <= 0` (in particular for
`durationSec <= 0` or `sampleRateHz <= 0` with the other factor positive) the
sample list is empty and the call fails with the untyped `ValueError` raised
by `max()` on an empty sequence; when `frequencyHz = 0` (unmodulated) and the
sample count is positive, every raw sample is zero and the call fails with
`ZeroDivisionError`; a negative frequency is not rejected. -/
theorem C1_amended (f s v fs k c : ℝ) (a : InstrArg) :
    (pyInt (s * fs) ≤ 0 →
      gen_custom_freq f s v fs a k c = .error .valueError) ∧
    (0 < pyInt (s * fs) →
      gen_custom_freq 0 s v fs .noneA k c = .error .zeroDivisionError) := by
  constructor
  · intro hn
    have ht : tList s fs = [] := by
      unfold tList
      rw [show (pyInt (s * fs)).toNat = 0 by omega]
      rfl
    rcases resolveInstrument_nil a k f with hr | hr
    · have hnote : resolveInstrument a k (tList s fs) f = .ok [] := by
        rw [ht]; exact hr
      exact gen_err_max hnote rfl
    · have hnote : resolveInstrument a k (tList s fs) f = .error .valueError := by
        rw [ht]; exact hr
      exact gen_err_resolve hnote
  · intro hn
    have hnote : resolveInstrument .noneA k (tList s fs) 0 =
        .ok ((tList s fs).map (fun _ => 0)) := by
      simp only [resolveInstrument]
      rw [BASE_SOUND_zero_freq]
    have hne : (tList s fs).map (fun _ => (0 : ℝ)) ≠ [] := by
      have hlen : ((tList s fs).map (fun _ => (0 : ℝ))).length =
          (pyInt (s * fs)).toNat := by
        rw [List.length_map, tList_length]
      intro hnil
      rw [hnil] at hlen
      simp at hlen
      omega
    have hm : pyMax (((tList s fs).map (fun _ => (0 : ℝ))).map abs) = .ok 0 := by
      apply pyMax_zeros
      · intro y hy
        rcases List.mem_map.mp hy with ⟨z, hz, hze⟩
        rcases List.mem_map.mp hz with ⟨w, _, hwe⟩
        rw [← hze, ← hwe]
        exact abs_zero
      · intro hnil
        exact hne (List.map_eq_nil_iff.mp hnil)
    exact gen_err_zero hnote hm

/-- C1, witness for the amended theorem at `seconds = 0`, `fs = 8000`. -/
theorem C1_witness :
    pyInt ((0 : ℝ) * 8000) ≤ 0 ∧
      gen_custom_freq 440 0 (1 / 5) 8000 .noneA 1 (1 / 100) =
        .error .valueError := by
  have h0 : pyInt ((0 : ℝ) * 8000) = 0 := by
    rw [zero_mul]; exact pyInt_zero
  refine ⟨le_of_eq h0, ?_⟩
  exact (C1_amended 440 0 (1 / 5) 8000 1 (1 / 100) .noneA).1 (le_of_eq h0)

/-- C2, counterexample: for the valid input `frequency = 1 > 0`,
`duration = 1 > 0`, `sampleRate = 2 > 0` every raw sample is `sin(pi*i) = 0`,
and `gen_custom_freq` raises `ZeroDivisionError` — there is no "treat a zero
maximum as 1" guard in the code. -/
theorem C2_counterexample :
    (0 : ℝ) < 1 ∧ (0 : ℝ) < 2 ∧
      gen_custom_freq 1 1 (1 / 5) 2 .noneA 1 (1 / 100) =
        .error .zeroDivisionError :=
  ⟨by norm_num, by norm_num, gen_eval_allzero⟩

/-- C2 (amended): for valid parameters the raw (unmodulated) sample sequence
has exactly `int(durationSec * sampleRateHz)` samples, and each emitted value
is divided by the maximum absolute raw sample; but there is no zero-maximum
guard: whenever that maximum is 0 the call fails with `ZeroDivisionError`
instead of dividing by 1. -/
theorem C2_amended (f s vol fs k c : ℝ) (hf : 0 < f) (hs : 0 < s)
    (hfs : 0 < fs) :
    (BASE_SOUND (tList s fs) f).length = (pyInt (s * fs)).toNat ∧
    (pyMax ((BASE_SOUND (tList s fs) f).map abs) = .ok 0 →
      gen_custom_freq f s vol fs .noneA k c = .error .zeroDivisionError) := by
  constructor
  · unfold BASE_SOUND
    rw [List.length_map, tList_length]
  · intro hm
    exact gen_err_zero (by simp only [resolveInstrument]) hm

/-- C2, witness for the amended theorem at `frequency = 1`, `duration = 1`,
`sampleRate = 2`. -/
theorem C2_witness :
    (0 : ℝ) < 1 ∧ (0 : ℝ) < 2 ∧
      ((BASE_SOUND (tList 1 2) 1).length = (pyInt ((1 : ℝ) * 2)).toNat ∧
      (pyMax ((BASE_SOUND (tList 1 2) 1).map abs) = .ok 0 →
        gen_custom_freq 1 1 (1 / 2) 2 .noneA 1 (1 / 100) =
          .error .zeroDivisionError)) :=
  ⟨by norm_num, by norm_num,
    C2_amended 1 1 (1 / 2) 2 1 (1 / 100) (by norm_num) (by norm_num) (by norm_num)⟩

/-- C4, counterexample: appending a `fs = 8000` sound to a `fs = 11025`
sequence does not fail with any error — `append` returns normally (the
mismatch branch is a silent no-op), refuting the claimed
`SampleRateMismatch` failure.  The sequence is indeed left unchanged. -/
theorem C4_counterexample :
    ({ pitch := 440, instrument := none, vol_factor := 1 / 5,
       instrument_strength := 1, cutoff_factor := 1 / 100, seconds := 1,
       fs := 8000, size := 0, audio := [], player := none,
       owned := [] } : SoundState).fs ≠ (11025 : ℝ) ∧
    SoundSeq.append
      { sounds := [], fs := 11025, size := 0, seconds := 0, audio := [],
        player := none, owned := [] }
      { pitch := 440, instrument := none, vol_factor := 1 / 5,
        instrument_strength := 1, cutoff_factor := 1 / 100, seconds := 1,
        fs := 8000, size := 0, audio := [], player := none, owned := [] }
      { nextId := 0, live := fun _ => false } =
      .ok ({ sounds := [], fs := 11025, size := 0, seconds := 0, audio := [],
             player := none, owned := [] },
           { nextId := 0, live := fun _ => false }) := by
  constructor
  · norm_num
  · unfold SoundSeq.append
    rw [if_neg (by norm_num)]

/-- C4 (amended): appending a sound whose sample rate differs from the
sequence's is a silent no-op: no `SampleRateMismatch` (or any other) error is
raised, and the sequence — member list, size, duration and buffer — is
returned unchanged. -/
theorem C4_amended (q : SoundSeqState) (s : SoundState) (be : Backend)
    (h : s.fs ≠ q.fs) :
    SoundSeq.append q s be = .ok (q, be) := by
  unfold SoundSeq.append
  rw [if_neg h]

/-- C4, witness for the amended theorem at sample rates 8000 vs 11025. -/
theorem C4_witness :
    ((8000 : ℝ) ≠ 11025) ∧
    SoundSeq.append
      { sounds := [], fs := 11025, size := 2, seconds := 1, audio := [1, 2],
        player := none, owned := [] }
      { pitch := 440, instrument := none, vol_factor := 1 / 5,
        instrument_strength := 1, cutoff_factor := 1 / 100, seconds := 1,
        fs := 8000, size := 0, audio := [], player := none, owned := [] }
      { nextId := 5, live := fun _ => false } =
      .ok ({ sounds := [], fs := 11025, size := 2, seconds := 1,
             audio := [1, 2], player := none, owned := [] },
           { nextId := 5, live := fun _ => false }) :=
  ⟨by norm_num, C4_amended _ _ _ (by norm_num)⟩

/-- C10: `set_pitch` and `set_instrument` silently ignore a string argument
that is not a key of the note table: no error is raised (both functions are
total) and the state — in particular the `pitch`, respectively `instrument`,
field — is returned unchanged. -/
theorem C10_unknown_name_ignored (st : SoundState) (s : String)
    (h : noteLookup s = none) :
    Sound.set_pitch st (.strA s) = st ∧
      Sound.set_instrument st (.strA s) = st := by
  simp only [Sound.set_pitch, Sound.set_instrument, h, and_self]

/-- C10, witness at the unknown note name `"H4"`. -/
theorem C10_witness :
    noteLookup "H4" = none ∧
    (Sound.set_pitch
        { pitch := 440, instrument := none, vol_factor := 1 / 5,
          instrument_strength := 1, cutoff_factor := 1 / 100, seconds := 1,
          fs := 8000, size := 0, audio := [], player := none, owned := [] }
        (.strA "H4") =
      { pitch := 440, instrument := none, vol_factor := 1 / 5,
        instrument_strength := 1, cutoff_factor := 1 / 100, seconds := 1,
        fs := 8000, size := 0, audio := [], player := none, owned := [] } ∧
    Sound.set_instrument
        { pitch := 440, instrument := none, vol_factor := 1 / 5,
          instrument_strength := 1, cutoff_factor := 1 / 100, seconds := 1,
          fs := 8000, size := 0, audio := [], player := none, owned := [] }
        (.strA "H4") =
      { pitch := 440, instrument := none, vol_factor := 1 / 5,
        instrument_strength := 1, cutoff_factor := 1 / 100, seconds := 1,
        fs := 8000, size := 0, audio := [], player := none, owned := [] }) := by
  have h : noteLookup "H4" = none := by decide
  exact ⟨h, C10_unknown_name_ignored _ "H4" h⟩

/-- The enharmonic sharp/flat spelling pairs present in the note table:
five accidental pairs in each of the octaves 0-8. -/
def enharmonicPairs : List (String × String) := [
  ("C#0", "Db0"),
  ("D#0", "Eb0"),
  ("F#0", "Gb0"),
  ("G#0", "Ab0"),
  ("A#0", "Bb0"),
  ("C#1", "Db1"),
  ("D#1", "Eb1"),
  ("F#1", "Gb1"),
  ("G#1", "Ab1"),
  ("A#1", "Bb1"),
  ("C#2", "Db2"),
  ("D#2", "Eb2"),
  ("F#2", "Gb2"),
  ("G#2", "Ab2"),
  ("A#2", "Bb2"),
  ("C#3", "Db3"),
  ("D#3", "Eb3"),
  ("F#3", "Gb3"),
  ("G#3", "Ab3"),
  ("A#3", "Bb3"),
  ("C#4", "Db4"),
  ("D#4", "Eb4"),
  ("F#4", "Gb4"),
  ("G#4", "Ab4"),
  ("A#4", "Bb4"),
  ("C#5", "Db5"),
  ("D#5", "Eb5"),
  ("F#5", "Gb5"),
  ("G#5", "Ab5"),
  ("A#5", "Bb5"),
  ("C#6", "Db6"),
  ("D#6", "Eb6"),
  ("F#6", "Gb6"),
  ("G#6", "Ab6"),
  ("A#6", "Bb6"),
  ("C#7", "Db7"),
  ("D#7", "Eb7"),
  ("F#7", "Gb7"),
  ("G#7", "Ab7"),
  ("A#7", "Bb7"),
  ("C#8", "Db8"),
  ("D#8", "Eb8"),
  ("F#8", "Gb8"),
  ("G#8", "Ab8"),
  ("A#8", "Bb8")]

set_option maxRecDepth 65536 in
/-- C8: the note table resolves "A4" to 440.0 and both "Bb4" and "A#4" to
466.16; the key list has no duplicates (every name maps to exactly one
frequency); and every enharmonic sharp/flat pair consists of two distinct
names that are both present and map to the same frequency. -/
theorem C8_note_table :
    noteLookup "A4" = some 440 ∧
    noteLookup "Bb4" = some 466.16 ∧
    noteLookup "A#4" = noteLookup "Bb4" ∧
    (NOTE.map Prod.fst).Nodup ∧
    ∀ p ∈ enharmonicPairs,
      p.1 ≠ p.2 ∧ noteLookup p.1 = noteLookup p.2 ∧ (noteLookup p.1).isSome := by
  refine ⟨?_, ?_, ?_, by decide, ?_⟩
  · simp only [noteLookup, NOTE, List.lookup, String.reduceBEq]
    norm_num
  · simp only [noteLookup, NOTE, List.lookup, String.reduceBEq]
  · simp only [noteLookup, NOTE, List.lookup, String.reduceBEq]
  · intro p hp
    fin_cases hp <;>
      exact ⟨by decide,
        by simp only [noteLookup, NOTE, List.lookup, String.reduceBEq],
        by simp only [noteLookup, NOTE, List.lookup, String.reduceBEq,
          Option.isSome_some]⟩

/-- C9, witness: the concrete call `gen_custom_freq 1 1 (1/5) 4` with no
modulation satisfies every hypothesis of `C9_no_overflow`. -/
theorem C9_witness :
    resolveInstrument .noneA 1 (tList 1 4) 1 = .ok [0, 1, 0, -1] ∧
    pyMax (List.map abs [(0 : ℝ), 1, 0, -1]) = .ok 1 ∧
    (0 : ℝ) < 1 ∧ (0 : ℝ) ≤ 1 / 5 ∧ (1 / 5 : ℝ) ≤ 1 ∧
    ((∀ w ∈ audioInts (normAudio [0, 1, 0, -1] (1 / 5) 1)
        (dynList (normAudio [(0 : ℝ), 1, 0, -1] (1 / 5) 1).length
          (pyInt ((1 : ℝ) * 4)) 4 (1 / 100)),
      -(2 ^ 15) ≤ w ∧ w < 2 ^ 15) ∧
    ∃ bs, gen_custom_freq 1 1 (1 / 5) 4 .noneA 1 (1 / 100) = .ok bs) := by
  have hnote : resolveInstrument .noneA 1 (tList 1 4) 1 = .ok [0, 1, 0, -1] := by
    simp only [resolveInstrument]
    rw [base_one_four]
  have hm : pyMax (List.map abs [(0 : ℝ), 1, 0, -1]) = .ok 1 := by
    rw [show List.map abs [(0 : ℝ), 1, 0, -1] = [0, 1, 0, 1] by norm_num]
    exact pyMax_0101
  exact ⟨hnote, hm, by norm_num, by norm_num, by norm_num,
    C9_no_overflow hnote hm (by norm_num) (by norm_num) (by norm_num)⟩

/-! Infrastructure for claim C3: `change_duration` regenerates the buffer,
the other setters do not. -/

theorem writeInto_exact {buf new : List ℤ} (h : new.length = buf.length) :
    writeInto buf new = .ok new := by
  unfold writeInto
  rw [if_pos (le_of_eq h), List.drop_eq_nil_of_le (le_of_eq h.symm),
    List.append_nil]

theorem change_duration_core_ok {st1 : SoundState} {s : ℝ}
    {fsArg : Option ℝ} {be1 : Backend} {st' : SoundState} {be' : Backend}
    (h : Sound.change_duration_core st1 s fsArg be1 = .ok (st', be')) :
    gen_custom_freq st'.pitch st'.seconds st'.vol_factor st'.fs
      (ofInstrField st'.instrument) st'.instrument_strength (1 / 100) =
      .ok st'.audio := by
  simp only [Sound.change_duration_core] at h
  by_cases hsz : pyInt (s * fsArg.getD st1.fs) * 2 < 0
  · rw [if_pos hsz] at h
    exact absurd h (by simp)
  · rw [if_neg hsz] at h
    cases hg : gen_custom_freq st1.pitch s st1.vol_factor (fsArg.getD st1.fs)
        (ofInstrField st1.instrument) st1.instrument_strength (1 / 100) with
    | error e =>
      rw [hg] at h
      exact absurd h (by simp)
    | ok newAudio =>
      rw [hg] at h
      dsimp only at h
      have hlen : newAudio.length =
          (List.replicate ((pyInt (s * fsArg.getD st1.fs) * 2).toNat)
            (0 : ℤ)).length := by
        rw [List.length_replicate, gen_ok_length hg]
        omega
      rw [writeInto_exact hlen] at h
      simp only [Except.ok.injEq, Prod.mk.injEq] at h
      rw [← h.1]
      exact hg

/-- An idle backend with no live handles. -/
def beIdle : Backend := { nextId := 0, live := fun _ => false }

/-- A concrete `Sound` state: one second at 4 Hz, frequency 1, volume 1/5,
no modulation, whose buffer is exactly the one `gen_custom_freq` produces for
those parameters. -/
noncomputable def c3st : SoundState :=
  { pitch := 1, instrument := none, vol_factor := 1 / 5,
    instrument_strength := 1, cutoff_factor := 1 / 100, seconds := 1,
    fs := 4, size := 4, audio := [0, 0, 153, 25, 0, 0, 103, 230],
    player := none, owned := [] }

/-- C3, counterexample: on a `Sound` whose buffer is consistent with its
parameters, `set_volume` changes the volume field but leaves the byte buffer
untouched, so immediately after the setter returns the buffer differs from
the buffer `gen_custom_freq` produces for the current parameter values —
refuting synchronous regeneration in every setter. -/
theorem C3_counterexample :
    gen_custom_freq c3st.pitch c3st.seconds c3st.vol_factor c3st.fs
      (ofInstrField c3st.instrument) c3st.instrument_strength (1 / 100) =
      .ok c3st.audio ∧
    (Sound.set_volume c3st (1 / 2)).audio = c3st.audio ∧
    (Sound.set_volume c3st (1 / 2)).vol_factor = 1 / 2 ∧
    gen_custom_freq (Sound.set_volume c3st (1 / 2)).pitch
      (Sound.set_volume c3st (1 / 2)).seconds
      (Sound.set_volume c3st (1 / 2)).vol_factor
      (Sound.set_volume c3st (1 / 2)).fs
      (ofInstrField (Sound.set_volume c3st (1 / 2)).instrument)
      (Sound.set_volume c3st (1 / 2)).instrument_strength (1 / 100) =
      .ok [0, 0, 255, 63, 0, 0, 1, 192] ∧
    (Sound.set_volume c3st (1 / 2)).audio ≠ [0, 0, 255, 63, 0, 0, 1, 192] := by
  refine ⟨gen_eval_fifth, rfl, rfl, gen_eval_half, ?_⟩
  intro hcontra
  have : ([0, 0, 153, 25, 0, 0, 103, 230] : List ℤ) =
      [0, 0, 255, 63, 0, 0, 1, 192] := hcontra
  exact absurd this (by decide)

/-- C3 (amended): `set_pitch`, `set_instrument`, `set_volume`,
`set_instrument_strength` and `set_cutoff_factor` only assign the parameter
field and leave the buffer unchanged (the buffer can be stale until
`change_duration` runs); only `change_duration` regenerates the buffer, and
when it succeeds the new buffer is exactly the `gen_custom_freq` output for
the state's current pitch, duration, volume, rate, instrument and strength —
with the default cutoff factor `0.01`, because `update_audio` does not pass
`self.cutoff_factor`. -/
theorem C3_amended (st : SoundState) (be : Backend) (aP : PitchArg)
    (aI : InstrArg) (v k c s : ℝ) (fsArg : Option ℝ) (st' : SoundState)
    (be' : Backend)
    (h : Sound.change_duration st s fsArg be = .ok (st', be')) :
    (Sound.set_pitch st aP).audio = st.audio ∧
    (Sound.set_instrument st aI).audio = st.audio ∧
    (Sound.set_volume st v).audio = st.audio ∧
    (Sound.set_instrument_strength st k).audio = st.audio ∧
    (Sound.set_cutoff_factor st c).audio = st.audio ∧
    gen_custom_freq st'.pitch st'.seconds st'.vol_factor st'.fs
      (ofInstrField st'.instrument) st'.instrument_strength (1 / 100) =
      .ok st'.audio := by
  refine ⟨?_, ?_, rfl, rfl, rfl, ?_⟩
  · cases aP with
    | strA s2 =>
      simp only [Sound.set_pitch]
      cases noteLookup s2 <;> rfl
    | numA x => rfl
  · cases aI with
    | noneA => rfl
    | strA s2 =>
      simp only [Sound.set_instrument]
      cases noteLookup s2 <;> rfl
    | numA x => rfl
  · simp only [Sound.change_duration] at h
    exact change_duration_core_ok h

/-- C3, witness: a concrete `change_duration` run on `c3st` (which is already
consistent, so the run is the identity), discharging the amended theorem's
hypothesis. -/
theorem C3_witness :
    Sound.change_duration c3st 1 none beIdle = .ok (c3st, beIdle) ∧
    ((Sound.set_pitch c3st (.numA 2)).audio = c3st.audio ∧
    (Sound.set_instrument c3st .noneA).audio = c3st.audio ∧
    (Sound.set_volume c3st (1 / 2)).audio = c3st.audio ∧
    (Sound.set_instrument_strength c3st 2).audio = c3st.audio ∧
    (Sound.set_cutoff_factor c3st (1 / 50)).audio = c3st.audio ∧
    gen_custom_freq c3st.pitch c3st.seconds c3st.vol_factor c3st.fs
      (ofInstrField c3st.instrument) c3st.instrument_strength (1 / 100) =
      .ok c3st.audio) := by
  have h : Sound.change_duration c3st 1 none beIdle = .ok (c3st, beIdle) := by
    have hnp : Sound.is_playing c3st beIdle = false := rfl
    simp only [Sound.change_duration, hnp, Bool.false_eq_true, if_false]
    rw [show ({ (c3st, beIdle).1 with player := none } : SoundState) = c3st
      from rfl]
    simp only [Sound.change_duration_core]
    rw [show (Option.getD (none : Option ℝ) c3st.fs) = 4 from rfl,
      pyInt_one_mul_four]
    rw [if_neg (by decide)]
    rw [show c3st.pitch = 1 from rfl,
      show c3st.vol_factor = (1 : ℝ) / 5 from rfl,
      show ofInstrField c3st.instrument = .noneA from rfl,
      show c3st.instrument_strength = (1 : ℝ) from rfl]
    rw [gen_eval_fifth]
    dsimp only
    rw [writeInto_exact
      (show ([0, 0, 153, 25, 0, 0, 103, 230] : List ℤ).length =
        (List.replicate ((4 * 2 : ℤ)).toNat (0 : ℤ)).length by decide)]
    rfl
  exact ⟨h, C3_amended c3st beIdle (.numA 2) .noneA (1 / 2) 2 (1 / 50) 1 none
    c3st beIdle h⟩

/-! Infrastructure for claim C6: per-sample characterization of the emitted
bytes. -/

theorem audioInts_normAudio_zipWith (note : List ℝ) (vol m : ℝ) :
    ∀ dyn : List ℝ,
      audioInts (normAudio note vol m) dyn =
        List.zipWith
          (fun x d => pyInt (((pyInt (x * vol * (2 ^ 15 - 1)) : ℤ) : ℝ) / m * d))
          note dyn := by
  induction note with
  | nil => intro dyn; rfl
  | cons x xs ih =>
    intro dyn
    cases dyn with
    | nil => rfl
    | cons d ds =>
      simp only [normAudio, List.map_cons, audioInts, List.zip_cons_cons,
        List.zipWith_cons_cons, List.cons.injEq]
      refine ⟨by trivial, ?_⟩
      have := ih ds
      simpa [audioInts, normAudio] using this

/-- C6, counterexample: at `frequency = 1`, `duration = 1`, `sampleRate = 4`,
`volume = 1/2`, the emitted sample at index 1 is the truncation
`int(16383.5) = 16383` (bytes `[255, 63]`), whereas the claimed
`round(normalizedSample * volume * envelope * 32767)` (with clamping) is
`16384` (bytes `[0, 64]`): the code truncates toward zero, it does not
round. -/
theorem C6_counterexample :
    gen_custom_freq 1 1 (1 / 2) 4 .noneA 1 (1 / 100) =
      .ok [0, 0, 255, 63, 0, 0, 1, 192] ∧
    to_bytes2le 16383 = .ok [255, 63] ∧
    specEmittedSample 1 (1 / 2) 1 = 16384 ∧
    to_bytes2le 16384 = .ok [0, 64] ∧
    ([255, 63] : List ℤ) ≠ [0, 64] := by
  refine ⟨gen_eval_half, by decide, ?_, by decide, by decide⟩
  unfold specEmittedSample
  rw [show (1 : ℝ) * (1 / 2) * 1 * (2 ^ 15 - 1) = 16383.5 by norm_num]
  rw [round_eq]
  rw [show (16383.5 : ℝ) + 1 / 2 = ((16384 : ℤ) : ℝ) by norm_num,
    Int.floor_intCast]
  decide

/-- C6 (amended): when no internal error occurs and every quantized value
fits in the signed 16-bit range, the emitted buffer is, per input sample `x`
with envelope value `d`, the two little-endian two's-complement bytes of
`int(int(x * volume * 32767) / maximum * d)` — truncation toward zero (not
rounding), with no clamping (an out-of-range value would instead raise
`OverflowError`). -/
theorem C6_amended {f s vol fs : ℝ} {a : InstrArg} {k c : ℝ}
    {note : List ℝ} {m : ℝ}
    (hnote : resolveInstrument a k (tList s fs) f = .ok note)
    (hm : pyMax (note.map abs) = .ok m) (h0 : m ≠ 0)
    (hrange : ∀ w ∈ audioInts (normAudio note vol m)
        (dynList (normAudio note vol m).length (pyInt (s * fs)) fs c),
      -(2 ^ 15) ≤ w ∧ w < 2 ^ 15) :
    gen_custom_freq f s vol fs a k c =
      .ok (((List.zipWith
          (fun x d => pyInt (((pyInt (x * vol * (2 ^ 15 - 1)) : ℤ) : ℝ) / m * d))
          note (dynList (normAudio note vol m).length (pyInt (s * fs)) fs c)).map
        (fun w => [(w.emod 65536).emod 256, (w.emod 65536).ediv 256])).flatten) := by
  rw [gen_eq_encode hnote hm h0, encodeAll_ok_of_range hrange,
    audioInts_normAudio_zipWith]

/-- C6, witness: the hypotheses of the amended theorem hold at the concrete
call `gen_custom_freq 1 1 (1/5) 4` with no modulation. -/
theorem C6_witness :
    resolveInstrument .noneA 1 (tList 1 4) 1 = .ok [0, 1, 0, -1] ∧
    pyMax (List.map abs [(0 : ℝ), 1, 0, -1]) = .ok 1 ∧
    ((1 : ℝ) ≠ 0) ∧
    (∀ w ∈ audioInts (normAudio [0, 1, 0, -1] (1 / 5) 1)
        (dynList (normAudio [(0 : ℝ), 1, 0, -1] (1 / 5) 1).length
          (pyInt ((1 : ℝ) * 4)) 4 (1 / 100)),
      -(2 ^ 15) ≤ w ∧ w < 2 ^ 15) ∧
    gen_custom_freq 1 1 (1 / 5) 4 .noneA 1 (1 / 100) =
      .ok (((List.zipWith
          (fun x d => pyInt (((pyInt (x * (1 / 5) * (2 ^ 15 - 1)) : ℤ) : ℝ) / 1 * d))
          [0, 1, 0, -1]
          (dynList (normAudio [(0 : ℝ), 1, 0, -1] (1 / 5) 1).length
            (pyInt ((1 : ℝ) * 4)) 4 (1 / 100))).map
        (fun w => [(w.emod 65536).emod 256, (w.emod 65536).ediv 256])).flatten) := by
  have hnote : resolveInstrument .noneA 1 (tList 1 4) 1 = .ok [0, 1, 0, -1] := by
    simp only [resolveInstrument]
    rw [base_one_four]
  have hm : pyMax (List.map abs [(0 : ℝ), 1, 0, -1]) = .ok 1 := by
    rw [show List.map abs [(0 : ℝ), 1, 0, -1] = [0, 1, 0, 1] by norm_num]
    exact pyMax_0101
  have hrange : ∀ w ∈ audioInts (normAudio [0, 1, 0, -1] (1 / 5) 1)
      (dynList (normAudio [(0 : ℝ), 1, 0, -1] (1 / 5) 1).length
        (pyInt ((1 : ℝ) * 4)) 4 (1 / 100)),
      -(2 ^ 15) ≤ w ∧ w < 2 ^ 15 := by
    rw [normAudio_fifth, show ([(0 : ℝ), 6553, 0, -6553].length) = 4 from rfl,
      pyInt_one_mul_four, dynList_four_id]
    rw [show ([(0 : ℝ), 6553, 0, -6553]) =
      [((0 : ℤ) : ℝ), ((6553 : ℤ) : ℝ), ((0 : ℤ) : ℝ), ((-6553 : ℤ) : ℝ)] by norm_num]
    rw [audioInts_ints]
    intro w hw
    fin_cases hw <;> refine ⟨by decide, by decide⟩
  exact ⟨hnote, hm, one_ne_zero,
    hrange, C6_amended hnote hm one_ne_zero hrange⟩

/-! Infrastructure for claim C5: evaluating the composition operators. -/

theorem soundSeq_init_ok (sounds : List SoundState)
    (hsz : ¬((sounds.map (fun s => s.size)).sum * 2 < 0))
    (hlen : ((sounds.map (fun s => s.audio)).flatten).length =
      ((sounds.map (fun s => s.size)).sum * 2).toNat) :
    SoundSeq.init sounds 8000 =
      .ok { sounds := sounds, fs := 8000,
            size := (sounds.map (fun s => s.size)).sum,
            seconds := (sounds.map (fun s => s.seconds)).sum,
            audio := (sounds.map (fun s => s.audio)).flatten,
            player := none, owned := [] } := by
  simp only [SoundSeq.init, SoundSeq.rebuild]
  rw [if_neg hsz]
  rw [writeInto_exact (by rw [List.length_replicate]; exact hlen)]

/-- Sound A of the C5 scenario: one sample, bytes `[1, 2]`. -/
noncomputable def sndA : SoundState :=
  { pitch := 440, instrument := none, vol_factor := 1 / 5,
    instrument_strength := 1, cutoff_factor := 1 / 100, seconds := 1,
    fs := 8000, size := 1, audio := [1, 2], player := none, owned := [] }

/-- Sound B of the C5 scenario: one sample, bytes `[3, 4]`. -/
noncomputable def sndB : SoundState :=
  { pitch := 440, instrument := none, vol_factor := 1 / 5,
    instrument_strength := 1, cutoff_factor := 1 / 100, seconds := 1,
    fs := 8000, size := 1, audio := [3, 4], player := none, owned := [] }

/-- Sound C of the C5 scenario: one sample, bytes `[5, 6]`. -/
noncomputable def sndC : SoundState :=
  { pitch := 440, instrument := none, vol_factor := 1 / 5,
    instrument_strength := 1, cutoff_factor := 1 / 100, seconds := 1,
    fs := 8000, size := 1, audio := [5, 6], player := none, owned := [] }

/-- C5: `(A + B) + C` with three same-rate `Sound`s crashes.  `A + B`
succeeds and yields a `SoundSeq`, but `SoundSeq.__add__` with a `Sound`
operand evaluates `self.sounds + other` — a Python list concatenated with a
`Sound` — which raises `TypeError` before building any sequence, even though
the method's own error message documents `Sound` as a valid operand.
`A + (B + C)` succeeds and produces the flattened sequence `[A, B, C]` with
the concatenated buffer, so the two associations disagree: one is a crash,
the other a value. -/
theorem C5_add_bug :
    (match Sound.add sndA (.sound sndB) with
      | .ok ab => SoundSeq.add ab (.sound sndC)
      | .error e => .error e) = .error .typeError ∧
    (∃ q, (match Sound.add sndB (.sound sndC) with
      | .ok bc => Sound.add sndA (.seq bc)
      | .error e => .error e) = .ok q ∧
      q.sounds = [sndA, sndB, sndC] ∧
      q.audio = sndA.audio ++ (sndB.audio ++ sndC.audio)) := by
  have hAB : Sound.add sndA (.sound sndB) =
      .ok { sounds := [sndA, sndB], fs := 8000,
            size := ([sndA, sndB].map (fun s => s.size)).sum,
            seconds := ([sndA, sndB].map (fun s => s.seconds)).sum,
            audio := ([sndA, sndB].map (fun s => s.audio)).flatten,
            player := none, owned := [] } := by
    simp only [Sound.add]
    exact soundSeq_init_ok [sndA, sndB]
      (by simp [sndA, sndB])
      (by simp [sndA, sndB])
  have hBC : Sound.add sndB (.sound sndC) =
      .ok { sounds := [sndB, sndC], fs := 8000,
            size := ([sndB, sndC].map (fun s => s.size)).sum,
            seconds := ([sndB, sndC].map (fun s => s.seconds)).sum,
            audio := ([sndB, sndC].map (fun s => s.audio)).flatten,
            player := none, owned := [] } := by
    simp only [Sound.add]
    exact soundSeq_init_ok [sndB, sndC]
      (by simp [sndB, sndC])
      (by simp [sndB, sndC])
  constructor
  · rw [hAB]
    rfl
  · rw [hBC]
    dsimp only
    simp only [Sound.add]
    have hACfull := soundSeq_init_ok [sndA, sndB, sndC]
      (by simp [sndA, sndB, sndC])
      (by simp [sndA, sndB, sndC])
    rw [hACfull]
    refine ⟨_, rfl, rfl, ?_⟩
    simp [sndA, sndB, sndC]

/-! Infrastructure for claim C7: the playback transport state machine. -/

theorem sound_stop_is_playing (st : SoundState) (be : Backend) :
    Sound.is_playing (Sound.stop st be).1 (Sound.stop st be).2 = false := by
  unfold Sound.stop
  cases hp : st.player <;> simp [Sound.is_playing, hp]

theorem sound_stop_idle (st : SoundState) (be : Backend)
    (h : st.player = none) : Sound.stop st be = (st, be) := by
  unfold Sound.stop
  rw [h]

theorem sound_stop_player (st : SoundState) (be : Backend) :
    (Sound.stop st be).1.player = none := by
  unfold Sound.stop
  cases hp : st.player
  · simpa using hp
  · rfl

theorem sound_stop_owned (st : SoundState) (be : Backend) :
    (Sound.stop st be).1.owned = st.owned := by
  unfold Sound.stop
  cases hp : st.player <;> rfl

theorem sound_stop_nextId (st : SoundState) (be : Backend) :
    (Sound.stop st be).2.nextId = be.nextId := by
  unfold Sound.stop
  cases hp : st.player <;> rfl

theorem sound_stop_kills_current (st : SoundState) (be : Backend) (h0 : ℕ)
    (hp : st.player = some h0) : (Sound.stop st be).2.live h0 = false := by
  unfold Sound.stop
  rw [hp]
  simp [Backend.stopHandle]

theorem sound_inv_stop (st : SoundState) (be : Backend) (h : SoundInv st be) :
    SoundInv (Sound.stop st be).1 (Sound.stop st be).2 := by
  obtain ⟨hwf, hown, hlive, hpl⟩ := h
  cases hp : st.player with
  | none =>
    rw [sound_stop_idle st be hp]
    exact ⟨hwf, hown, hlive, hpl⟩
  | some h0 =>
    unfold Sound.stop
    rw [hp]
    refine ⟨?_, hown, ?_, ?_⟩
    · intro x hx
      simp only [Backend.stopHandle]
      split
      · rfl
      · exact hwf x hx
    · intro x hx hl
      exfalso
      simp only [Backend.stopHandle] at hl
      by_cases hxe : x = h0
      · rw [if_pos hxe] at hl
        exact Bool.false_ne_true hl
      · rw [if_neg hxe] at hl
        have h2 := hlive x hx hl
        rw [hp] at h2
        exact hxe (Option.some.inj h2).symm
    · intro x hx
      exact absurd hx (by simp)

theorem sound_inv_complete (st : SoundState) (be : Backend)
    (h : SoundInv st be) (hh : ℕ) : SoundInv st (completeH hh be) := by
  obtain ⟨hwf, hown, hlive, hpl⟩ := h
  refine ⟨?_, hown, ?_, hpl⟩
  · intro x hx
    simp only [completeH, Backend.stopHandle]
    split
    · rfl
    · exact hwf x hx
  · intro x hx hl
    simp only [completeH, Backend.stopHandle] at hl
    split at hl
    · exact absurd hl (by simp)
    · exact hlive x hx hl

theorem sound_stop_live_mono (st : SoundState) (be : Backend) (x : ℕ)
    (hl : (Sound.stop st be).2.live x = true) : be.live x = true := by
  unfold Sound.stop at hl
  cases hp : st.player
  · rw [hp] at hl
    exact hl
  · rw [hp] at hl
    simp only [Backend.stopHandle] at hl
    split at hl
    · exact absurd hl (by simp)
    · exact hl

theorem sound_inv_play (st : SoundState) (be : Backend) (h : SoundInv st be) :
    SoundInv (Sound.play st be).1 (Sound.play st be).2 := by
  simp only [Sound.play, Backend.playBuffer]
  by_cases hpl : Sound.is_playing st be = true
  · rw [if_pos hpl]
    obtain ⟨hwf, hown, hlive, hplb⟩ := sound_inv_stop st be h
    refine ⟨?_, ?_, ?_, ?_⟩
    · intro x hx
      replace hx : (Sound.stop st be).2.nextId + 1 ≤ x := hx
      show (if x = (Sound.stop st be).2.nextId then true
        else (Sound.stop st be).2.live x) = false
      rw [if_neg (by omega)]
      exact hwf x (by omega)
    · intro x hx
      replace hx : x ∈ (Sound.stop st be).2.nextId ::
        (Sound.stop st be).1.owned := hx
      show x < (Sound.stop st be).2.nextId + 1
      rcases List.mem_cons.mp hx with h1 | h1
      · omega
      · have := hown x h1
        omega
    · intro x hx hl
      replace hx : x ∈ (Sound.stop st be).2.nextId ::
        (Sound.stop st be).1.owned := hx
      replace hl : (if x = (Sound.stop st be).2.nextId then true
        else (Sound.stop st be).2.live x) = true := hl
      show some ((Sound.stop st be).2.nextId) = some x
      by_cases hxe : x = (Sound.stop st be).2.nextId
      · rw [hxe]
      · rw [if_neg hxe] at hl
        rcases List.mem_cons.mp hx with h1 | h1
        · exact absurd h1 hxe
        · have h2 := hlive x h1 hl
          rw [sound_stop_player] at h2
          exact absurd h2 (by simp)
    · intro x hx
      replace hx : some ((Sound.stop st be).2.nextId) = some x := hx
      show x < (Sound.stop st be).2.nextId + 1
      have := Option.some.inj hx
      omega
  · rw [if_neg hpl]
    obtain ⟨hwf, hown, hlive, hplb⟩ := h
    refine ⟨?_, ?_, ?_, ?_⟩
    · intro x hx
      replace hx : be.nextId + 1 ≤ x := hx
      show (if x = be.nextId then true else be.live x) = false
      rw [if_neg (by omega)]
      exact hwf x (by omega)
    · intro x hx
      replace hx : x ∈ be.nextId :: st.owned := hx
      show x < be.nextId + 1
      rcases List.mem_cons.mp hx with h1 | h1
      · omega
      · have := hown x h1
        omega
    · intro x hx hl
      replace hx : x ∈ be.nextId :: st.owned := hx
      replace hl : (if x = be.nextId then true else be.live x) = true := hl
      show some be.nextId = some x
      by_cases hxe : x = be.nextId
      · rw [hxe]
      · rw [if_neg hxe] at hl
        rcases List.mem_cons.mp hx with h1 | h1
        · exact absurd h1 hxe
        · have h2 := hlive x h1 hl
          exfalso
          apply hpl
          unfold Sound.is_playing
          rw [h2]
          exact hl
    · intro x hx
      replace hx : some be.nextId = some x := hx
      show x < be.nextId + 1
      have := Option.some.inj hx
      omega

theorem sound_play_kills_old (st : SoundState) (be : Backend)
    (h : SoundInv st be) (h0 : ℕ) (hp : st.player = some h0) :
    ((Sound.play st be).2).live h0 = false := by
  simp only [Sound.play, Backend.playBuffer]
  have hlt : h0 < be.nextId := h.2.2.2 h0 hp
  by_cases hpl : Sound.is_playing st be = true
  · rw [if_pos hpl]
    show (if h0 = (Sound.stop st be).2.nextId then true
      else (Sound.stop st be).2.live h0) = false
    rw [if_neg (by rw [sound_stop_nextId]; omega)]
    exact sound_stop_kills_current st be h0 hp
  · rw [if_neg hpl]
    show (if h0 = be.nextId then true else be.live h0) = false
    rw [if_neg (by omega)]
    unfold Sound.is_playing at hpl
    rw [hp] at hpl
    simpa using hpl

/-! The same transport lemmas for `SoundSeq`. -/

theorem seq_stop_is_playing (q : SoundSeqState) (be : Backend) :
    SoundSeq.is_playing (SoundSeq.stop q be).1 (SoundSeq.stop q be).2 = false := by
  unfold SoundSeq.stop
  cases hp : q.player <;> simp [SoundSeq.is_playing, hp]

theorem seq_stop_idle (q : SoundSeqState) (be : Backend)
    (h : q.player = none) : SoundSeq.stop q be = (q, be) := by
  unfold SoundSeq.stop
  rw [h]

theorem seq_stop_player (q : SoundSeqState) (be : Backend) :
    (SoundSeq.stop q be).1.player = none := by
  unfold SoundSeq.stop
  cases hp : q.player
  · simpa using hp
  · rfl

theorem seq_stop_owned (q : SoundSeqState) (be : Backend) :
    (SoundSeq.stop q be).1.owned = q.owned := by
  unfold SoundSeq.stop
  cases hp : q.player <;> rfl

theorem seq_stop_nextId (q : SoundSeqState) (be : Backend) :
    (SoundSeq.stop q be).2.nextId = be.nextId := by
  unfold SoundSeq.stop
  cases hp : q.player <;> rfl

theorem seq_stop_kills_current (q : SoundSeqState) (be : Backend) (h0 : ℕ)
    (hp : q.player = some h0) : (SoundSeq.stop q be).2.live h0 = false := by
  unfold SoundSeq.stop
  rw [hp]
  simp [Backend.stopHandle]

theorem seq_inv_stop (q : SoundSeqState) (be : Backend) (h : SoundSeqInv q be) :
    SoundSeqInv (SoundSeq.stop q be).1 (SoundSeq.stop q be).2 := by
  obtain ⟨hwf, hown, hlive, hpl⟩ := h
  cases hp : q.player with
  | none =>
    rw [seq_stop_idle q be hp]
    exact ⟨hwf, hown, hlive, hpl⟩
  | some h0 =>
    unfold SoundSeq.stop
    rw [hp]
    refine ⟨?_, hown, ?_, ?_⟩
    · intro x hx
      simp only [Backend.stopHandle]
      split
      · rfl
      · exact hwf x hx
    · intro x hx hl
      exfalso
      simp only [Backend.stopHandle] at hl
      by_cases hxe : x = h0
      · rw [if_pos hxe] at hl
        exact Bool.false_ne_true hl
      · rw [if_neg hxe] at hl
        have h2 := hlive x hx hl
        rw [hp] at h2
        exact hxe (Option.some.inj h2).symm
    · intro x hx
      exact absurd hx (by simp)

theorem seq_inv_complete (q : SoundSeqState) (be : Backend)
    (h : SoundSeqInv q be) (hh : ℕ) : SoundSeqInv q (completeH hh be) := by
  obtain ⟨hwf, hown, hlive, hpl⟩ := h
  refine ⟨?_, hown, ?_, hpl⟩
  · intro x hx
    simp only [completeH, Backend.stopHandle]
    split
    · rfl
    · exact hwf x hx
  · intro x hx hl
    simp only [completeH, Backend.stopHandle] at hl
    split at hl
    · exact absurd hl (by simp)
    · exact hlive x hx hl

theorem seq_stop_live_mono (q : SoundSeqState) (be : Backend) (x : ℕ)
    (hl : (SoundSeq.stop q be).2.live x = true) : be.live x = true := by
  unfold SoundSeq.stop at hl
  cases hp : q.player
  · rw [hp] at hl
    exact hl
  · rw [hp] at hl
    simp only [Backend.stopHandle] at hl
    split at hl
    · exact absurd hl (by simp)
    · exact hl

theorem seq_inv_play (q : SoundSeqState) (be : Backend) (h : SoundSeqInv q be) :
    SoundSeqInv (SoundSeq.play q be).1 (SoundSeq.play q be).2 := by
  simp only [SoundSeq.play, Backend.playBuffer]
  by_cases hpl : SoundSeq.is_playing q be = true
  · rw [if_pos hpl]
    obtain ⟨hwf, hown, hlive, hplb⟩ := seq_inv_stop q be h
    refine ⟨?_, ?_, ?_, ?_⟩
    · intro x hx
      replace hx : (SoundSeq.stop q be).2.nextId + 1 ≤ x := hx
      show (if x = (SoundSeq.stop q be).2.nextId then true
        else (SoundSeq.stop q be).2.live x) = false
      rw [if_neg (by omega)]
      exact hwf x (by omega)
    · intro x hx
      replace hx : x ∈ (SoundSeq.stop q be).2.nextId ::
        (SoundSeq.stop q be).1.owned := hx
      show x < (SoundSeq.stop q be).2.nextId + 1
      rcases List.mem_cons.mp hx with h1 | h1
      · omega
      · have := hown x h1
        omega
    · intro x hx hl
      replace hx : x ∈ (SoundSeq.stop q be).2.nextId ::
        (SoundSeq.stop q be).1.owned := hx
      replace hl : (if x = (SoundSeq.stop q be).2.nextId then true
        else (SoundSeq.stop q be).2.live x) = true := hl
      show some ((SoundSeq.stop q be).2.nextId) = some x
      by_cases hxe : x = (SoundSeq.stop q be).2.nextId
      · rw [hxe]
      · rw [if_neg hxe] at hl
        rcases List.mem_cons.mp hx with h1 | h1
        · exact absurd h1 hxe
        · have h2 := hlive x h1 hl
          rw [seq_stop_player] at h2
          exact absurd h2 (by simp)
    · intro x hx
      replace hx : some ((SoundSeq.stop q be).2.nextId) = some x := hx
      show x < (SoundSeq.stop q be).2.nextId + 1
      have := Option.some.inj hx
      omega
  · rw [if_neg hpl]
    obtain ⟨hwf, hown, hlive, hplb⟩ := h
    refine ⟨?_, ?_, ?_, ?_⟩
    · intro x hx
      replace hx : be.nextId + 1 ≤ x := hx
      show (if x = be.nextId then true else be.live x) = false
      rw [if_neg (by omega)]
      exact hwf x (by omega)
    · intro x hx
      replace hx : x ∈ be.nextId :: q.owned := hx
      show x < be.nextId + 1
      rcases List.mem_cons.mp hx with h1 | h1
      · omega
      · have := hown x h1
        omega
    · intro x hx hl
      replace hx : x ∈ be.nextId :: q.owned := hx
      replace hl : (if x = be.nextId then true else be.live x) = true := hl
      show some be.nextId = some x
      by_cases hxe : x = be.nextId
      · rw [hxe]
      · rw [if_neg hxe] at hl
        rcases List.mem_cons.mp hx with h1 | h1
        · exact absurd h1 hxe
        · have h2 := hlive x h1 hl
          exfalso
          apply hpl
          unfold SoundSeq.is_playing
          rw [h2]
          exact hl
    · intro x hx
      replace hx : some be.nextId = some x := hx
      show x < be.nextId + 1
      have := Option.some.inj hx
      omega

theorem seq_play_kills_old (q : SoundSeqState) (be : Backend)
    (h : SoundSeqInv q be) (h0 : ℕ) (hp : q.player = some h0) :
    ((SoundSeq.play q be).2).live h0 = false := by
  simp only [SoundSeq.play, Backend.playBuffer]
  have hlt : h0 < be.nextId := h.2.2.2 h0 hp
  by_cases hpl : SoundSeq.is_playing q be = true
  · rw [if_pos hpl]
    show (if h0 = (SoundSeq.stop q be).2.nextId then true
      else (SoundSeq.stop q be).2.live h0) = false
    rw [if_neg (by rw [seq_stop_nextId]; omega)]
    exact seq_stop_kills_current q be h0 hp
  · rw [if_neg hpl]
    show (if h0 = be.nextId then true else be.live h0) = false
    rw [if_neg (by omega)]
    unfold SoundSeq.is_playing at hpl
    rw [hp] at hpl
    simpa using hpl

/-- C7: the playback transport contract, for both `Sound` and `SoundSeq`.
Under the single-live-handle invariant (every handle the object ever owned
that is still live is the current one), `play` and `stop` preserve the
invariant, as does any asynchronous natural completion (`completeH`) by the
backend; `play` while a prior handle exists leaves that prior handle dead
(never two overlapping submissions for the same object); immediately after
`stop` returns, `is_playing` is false; and `stop` on an idle object is the
identity (idempotent). -/
theorem C7_transport (st : SoundState) (q : SoundSeqState) (be beq : Backend)
    (hs : SoundInv st be) (hq : SoundSeqInv q beq) :
    (SoundInv (Sound.play st be).1 (Sound.play st be).2 ∧
     SoundInv (Sound.stop st be).1 (Sound.stop st be).2 ∧
     (∀ h, SoundInv st (completeH h be)) ∧
     (∀ h, st.player = some h → ((Sound.play st be).2).live h = false) ∧
     Sound.is_playing (Sound.stop st be).1 (Sound.stop st be).2 = false ∧
     (st.player = none → Sound.stop st be = (st, be))) ∧
    (SoundSeqInv (SoundSeq.play q beq).1 (SoundSeq.play q beq).2 ∧
     SoundSeqInv (SoundSeq.stop q beq).1 (SoundSeq.stop q beq).2 ∧
     (∀ h, SoundSeqInv q (completeH h beq)) ∧
     (∀ h, q.player = some h → ((SoundSeq.play q beq).2).live h = false) ∧
     SoundSeq.is_playing (SoundSeq.stop q beq).1 (SoundSeq.stop q beq).2 = false ∧
     (q.player = none → SoundSeq.stop q beq = (q, beq))) :=
  ⟨⟨sound_inv_play st be hs, sound_inv_stop st be hs,
    sound_inv_complete st be hs,
    fun h hp => sound_play_kills_old st be hs h hp,
    sound_stop_is_playing st be, sound_stop_idle st be⟩,
   ⟨seq_inv_play q beq hq, seq_inv_stop q beq hq,
    seq_inv_complete q beq hq,
    fun h hp => seq_play_kills_old q beq hq h hp,
    seq_stop_is_playing q beq, seq_stop_idle q beq⟩⟩

/-- A `Sound` that is currently playing handle 0. -/
noncomputable def c7st : SoundState :=
  { pitch := 440, instrument := none, vol_factor := 1 / 5,
    instrument_strength := 1, cutoff_factor := 1 / 100, seconds := 1,
    fs := 8000, size := 0, audio := [], player := some 0, owned := [0] }

/-- A backend in which exactly handle 0 is live and handle 1 is next. -/
def c7be : Backend := { nextId := 1, live := fun x => x == 0 }

/-- An idle `SoundSeq`. -/
noncomputable def c7q : SoundSeqState :=
  { sounds := [], fs := 8000, size := 0, seconds := 0, audio := [],
    player := none, owned := [] }

/-- C7, witness: a playing `Sound` and an idle `SoundSeq` satisfy the
transport invariant, and the transport theorem applies to them. -/
theorem C7_witness :
    SoundInv c7st c7be ∧ SoundSeqInv c7q beIdle ∧
    ((SoundInv (Sound.play c7st c7be).1 (Sound.play c7st c7be).2 ∧
     SoundInv (Sound.stop c7st c7be).1 (Sound.stop c7st c7be).2 ∧
     (∀ h, SoundInv c7st (completeH h c7be)) ∧
     (∀ h, c7st.player = some h → ((Sound.play c7st c7be).2).live h = false) ∧
     Sound.is_playing (Sound.stop c7st c7be).1 (Sound.stop c7st c7be).2 = false ∧
     (c7st.player = none → Sound.stop c7st c7be = (c7st, c7be))) ∧
    (SoundSeqInv (SoundSeq.play c7q beIdle).1 (SoundSeq.play c7q beIdle).2 ∧
     SoundSeqInv (SoundSeq.stop c7q beIdle).1 (SoundSeq.stop c7q beIdle).2 ∧
     (∀ h, SoundSeqInv c7q (completeH h beIdle)) ∧
     (∀ h, c7q.player = some h → ((SoundSeq.play c7q beIdle).2).live h = false) ∧
     SoundSeq.is_playing (SoundSeq.stop c7q beIdle).1
       (SoundSeq.stop c7q beIdle).2 = false ∧
     (c7q.player = none → SoundSeq.stop c7q beIdle = (c7q, beIdle)))) := by
  have h1 : SoundInv c7st c7be := by
    refine ⟨?_, ?_, ?_, ?_⟩
    · intro x hx
      replace hx : 1 ≤ x := hx
      show (x == 0) = false
      simp
      omega
    · intro x hx
      replace hx : x ∈ [0] := hx
      simp at hx
      show x < 1
      omega
    · intro x hx hl
      replace hx : x ∈ [0] := hx
      simp at hx
      subst hx
      rfl
    · intro x hx
      replace hx : some 0 = some x := hx
      have := Option.some.inj hx
      show x < 1
      omega
  have h2 : SoundSeqInv c7q beIdle := by
    refine ⟨fun x _ => rfl, ?_, ?_, ?_⟩
    · intro x hx
      replace hx : x ∈ ([] : List ℕ) := hx
      simp at hx
    · intro x hx
      replace hx : x ∈ ([] : List ℕ) := hx
      simp at hx
    · intro x hx
      replace hx : (none : Option ℕ) = some x := hx
      simp at hx
  exact ⟨h1, h2, C7_transport c7st c7q c7be beIdle h1 h2⟩

end MusicSound
